import Mathlib

/-!
# Verification of the vicar-rs PVL / VICAR label parser

Shallow embedding of the core of `src/lib.rs` (the VICAR embedded-label
resolver and pixel addressing engine) and `src/pvl.rs` (the PVL scanner and
structural parser) of the `MarsRaw/vicar-rs` crate, together with theorems
settling the specification claims about them.

Conventions of the embedding:
* Text is modelled as `List Char`; the Rust code indexes `as_bytes()` and
  casts each byte to `char`, so for the (8-bit) label texts this is the same
  character-by-character view the code uses.
* Rust `Result` values are modelled by `PRes`:  `.ok` / `.err` mirror
  `Ok`/`Err`, `.panic` marks a Rust panic (`unwrap` of an `Err`/`None`, or an
  out-of-bounds slice), and `.timeout` is the fuel-exhaustion artefact used
  for loops (never reached with sufficient fuel; loop fuel is passed
  explicitly and every internal call site passes `content.length + 2`, which
  dominates every loop that advances its cursor).
* `usize` values are modelled as `Nat`; overflow does not matter for any of
  the claims (claim formulas and code formulas are the same expressions).
* Error payload strings produced with the `t!` debug-format macro are kept as
  the raw text (the `{:?}` quoting is irrelevant to every claim).
-/

set_option maxRecDepth 8000
set_option maxHeartbeats 1600000

namespace VicarRs

/-- Result of a Rust computation: `Ok`, `Err`, a panic, or fuel exhaustion. -/
inductive PRes (ε : Type) (α : Type) where
  | ok (a : α)
  | err (e : ε)
  | panic
  | timeout
deriving DecidableEq, Repr

/-- Models Rust's `?` operator: propagate any non-`Ok` outcome. -/
def PRes.bind {ε α β : Type} : PRes ε α → (α → PRes ε β) → PRes ε β
  | .ok a, f => f a
  | .err e, _ => .err e
  | .panic, _ => .panic
  | .timeout, _ => .timeout

/-- The double-quote character (kept out of character-literal syntax). -/
def dq : Char := Char.ofNat 34

/-- The single-quote character (kept out of character-literal syntax). -/
def sq : Char := Char.ofNat 39

/-- Rust `str::split(c)`: splits at every occurrence, keeping empty pieces
(`"".split(c)` yields one empty piece). -/
def splitOnChar (c : Char) : List Char → List (List Char)
  | [] => [[]]
  | x :: xs =>
    if x = c then [] :: splitOnChar c xs
    else
      match splitOnChar c xs with
      | [] => [[x]]
      | h :: t => (x :: h) :: t

/-- Whitespace trimmed by Rust `str::trim` (restricted to the ASCII
whitespace that can occur in these 8-bit label texts). -/
def isTrimWs (c : Char) : Bool := c == ' ' || c == '\t' || c == '\n' || c == '\r'

/-- Rust `str::trim`. -/
def trimL (s : List Char) : List Char :=
  ((s.dropWhile isTrimWs).reverse.dropWhile isTrimWs).reverse

/-- `List.map Char.toUpper`, modelling Rust `str::to_uppercase` (identical on
the ASCII tokens compared against, and no token contains a multi-character
uppercase expansion, so no match outcome differs). -/
def upperList (s : List Char) : List Char := s.map Char.toUpper

/-- Accumulating decimal-digit evaluation. -/
def digitsToNat (acc : Nat) : List Char → Nat
  | [] => acc
  | c :: cs => digitsToNat (acc * 10 + (c.toNat - 48)) cs

/-- Rust `str::parse::<usize>()`: an optional leading `+`, then one or more
ASCII digits, value fitting in 64 bits. -/
def parseUsizeText (s : List Char) : Option Nat :=
  let t := match s with
    | c :: rest => if c = '+' then rest else s
    | [] => s
  if t = [] then none
  else if t.all Char.isDigit then
    let v := digitsToNat 0 t
    if v < 2 ^ 64 then some v else none
  else none

namespace Vicar

/-! ## `src/lib.rs`: value typing, enumerations, and the embedded-label
VICAR reader -/

/-- `VicarError` of `src/lib.rs`. -/
inductive VicarError where
  | Eof
  | Syntax (msg : String)
  | Programming (msg : String)
  | InvalidType
  | ValueTypeParseError
  | InvalidEncoding (msg : String)
  | General (msg : String)
  | PropertyNotFound (msg : String)
  | UnexpectedEnum (token : List Char)
  | LabelError (msg : String)
deriving DecidableEq, Repr

/-- `ValueType` of `src/lib.rs`. -/
inductive ValueType where
  | Undetermined
  | Array
  | String
  | Float
  | Integer
  | Bool
  | Flag
  | BitMask
deriving DecidableEq, Repr

/-- A PVL right-hand value: raw text plus the type inferred at construction. -/
structure Value where
  value_raw : List Char
  value_type : ValueType
deriving DecidableEq, Repr

/-- `BOOL_DETERMINATE` regex `^['"](TRUE|FALSE)['"]$`. -/
def boolDeterminate (s : List Char) : Bool :=
  let isQ : Char → Bool := fun c => c == dq || c == sq
  match s with
  | [q1, 'T', 'R', 'U', 'E', q2] => isQ q1 && isQ q2
  | [q1, 'F', 'A', 'L', 'S', 'E', q2] => isQ q1 && isQ q2
  | _ => false

/-- Helper for the `^<open>.*<close>$` regexes: the tail must end with a
closing character and (matching regex `.`) contain no newline before it. -/
def closedTail (isClose : Char → Bool) : List Char → Bool
  | [] => false
  | [c] => isClose c
  | c :: rest => c != '\n' && closedTail isClose rest

/-- `STRING_DETERMINATE` regex `^['"].*['"]$` (regex `.` excludes `\n`). -/
def stringDeterminate (s : List Char) : Bool :=
  let isQ : Char → Bool := fun c => c == dq || c == sq
  match s with
  | c :: rest => isQ c && closedTail isQ rest
  | [] => false

/-- `ARRAY_DETERMINATE` regex `^\(.*\)$`. -/
def arrayDeterminate (s : List Char) : Bool :=
  match s with
  | c :: rest => c == '(' && closedTail (fun c => c == ')') rest
  | [] => false

/-- `FLOAT_DETERMINATE` regex `^-*[0-9]+\.[0-9][ ]*` (end-unanchored; the
trailing `[ ]*` is vacuous). -/
def floatDeterminate (s : List Char) : Bool :=
  let s1 := s.dropWhile (fun c => c == '-')
  let ds := s1.takeWhile Char.isDigit
  let s2 := s1.dropWhile Char.isDigit
  !ds.isEmpty &&
    match s2 with
    | '.' :: d :: _ => d.isDigit
    | _ => false

/-- `INTEGER_DETERMINATE` regex `^[+-]*[0-9]+[^#a-zA-Z]*[ ]*`.  The pattern
is end-unanchored and both trailing classes are starred, so the match
succeeds exactly when an optional sign run is followed by at least one
digit — the `[^#a-zA-Z]*` class never excludes anything. -/
def integerDeterminate (s : List Char) : Bool :=
  let s1 := s.dropWhile (fun c => c == '+' || c == '-')
  match s1 with
  | c :: _ => c.isDigit
  | [] => false

/-- `FLAG_DETERMINATE` regex `^[a-zA-Z_]+[a-zA-Z0-9]+$`: some non-trivial
split into a letter/underscore run followed by an alphanumeric run. -/
def flagDeterminate (s : List Char) : Bool :=
  (List.range s.length).any fun k =>
    decide (k ≠ 0) && (s.take k).all (fun c => c.isAlpha || c == '_') &&
      decide (s.drop k ≠ []) && (s.drop k).all (fun c => c.isAlpha || c.isDigit)

/-- `BITMASK_DETERMINATE` regex `^[1-8]*#+[0-1]+#+$` (all the adjacent
character classes are disjoint at their boundaries, so the greedy scan is
exact). -/
def bitmaskDeterminate (s : List Char) : Bool :=
  let is18 : Char → Bool := fun c => '1' ≤ c && c ≤ '8'
  let isHash : Char → Bool := fun c => c == '#'
  let is01 : Char → Bool := fun c => c == '0' || c == '1'
  let s1 := s.dropWhile is18
  let h1 := s1.takeWhile isHash
  let s2 := s1.dropWhile isHash
  let bs := s2.takeWhile is01
  let s3 := s2.dropWhile is01
  let h2 := s3.takeWhile isHash
  let s4 := s3.dropWhile isHash
  !h1.isEmpty && !bs.isEmpty && !h2.isEmpty && s4.isEmpty

/-- `Value::determine_type` of `src/lib.rs`: the fixed, ordered decision
list over the regex matchers. -/
def Value.determine_type (value_raw : List Char) : ValueType :=
  if boolDeterminate value_raw then .Bool
  else if stringDeterminate value_raw then .String
  else if arrayDeterminate value_raw then .Array
  else if floatDeterminate value_raw then .Float
  else if bitmaskDeterminate value_raw then .BitMask
  else if integerDeterminate value_raw then .Integer
  else if flagDeterminate value_raw then .Flag
  else .Undetermined

/-- `Value::new`. -/
def Value.new (value_raw : List Char) : Value :=
  ⟨value_raw, Value.determine_type value_raw⟩

/-- The body generated by the `impl_parse_fn!` macro of `src/lib.rs`,
parameterised by the native textual parser and the expected type. -/
def implParseFn {α : Type} (parseNative : List Char → Option α)
    (expected : ValueType) (v : Value) : PRes VicarError α :=
  if v.value_type ≠ .Undetermined ∧ v.value_type ≠ expected then .err .InvalidType
  else
    match parseNative v.value_raw with
    | some x => .ok x
    | none => .err .ValueTypeParseError

/-- `Value::parse_usize` (instance of `impl_parse_fn!`). -/
def Value.parse_usize (v : Value) : PRes VicarError Nat :=
  implParseFn parseUsizeText .Integer v

/-- `Value::parse_string` of `src/lib.rs`: allows `Undetermined` or
`String`, and strips every `"` and `'` character. -/
def Value.parse_string (v : Value) : PRes VicarError (List Char) :=
  if v.value_type ≠ .Undetermined ∧ v.value_type ≠ .String then .err .InvalidType
  else .ok (v.value_raw.filter (fun c => !(c == dq || c == sq)))

/-- `Value::parse_array` of `src/lib.rs`: requires the type to be exactly
`Array`, then takes `value_raw[1..len-1]` (a panicking slice when the raw
text is shorter than two characters) and splits it flatly on `,`. -/
def Value.parse_array (v : Value) : PRes VicarError (List Value) :=
  if v.value_type ≠ .Array then .err .InvalidType
  else if v.value_raw.length < 2 then .panic
  else .ok (((splitOnChar ',' ((v.value_raw.drop 1).take (v.value_raw.length - 2))).map Value.new))

/-- `PixelFormat` of `src/lib.rs`. -/
inductive PixelFormat where
  | Byte
  | Half
  | Word
  | Full
  | Long
  | Real
  | Doub
  | Comp
  | Complex
deriving DecidableEq, Repr

/-- `PixelFormat::bytes_per_sample` (the source reports `Real`/`Doub` as 2
bytes; preserved exactly). -/
def PixelFormat.bytes_per_sample : PixelFormat → Nat
  | .Byte => 1
  | .Half => 2
  | .Word => 2
  | .Full => 4
  | .Long => 4
  | .Real => 2
  | .Doub => 2
  | .Comp => 4
  | .Complex => 4

/-- The match of `PixelFormat::from_string` applied to the already
uppercased token; the second argument is the original token kept for the
`UnexpectedEnum` payload. -/
def PixelFormat.fromUpper (u orig : List Char) : PRes VicarError PixelFormat :=
  if u = "BYTE".toList then .ok .Byte
  else if u = "HALF".toList then .ok .Half
  else if u = "WORD".toList then .ok .Half
  else if u = "FULL".toList then .ok .Full
  else if u = "LONG".toList then .ok .Full
  else if u = "REAL".toList then .ok .Real
  else if u = "DOUB".toList then .ok .Doub
  else if u = "COMP".toList then .ok .Comp
  else if u = "COMPLEX".toList then .ok .Comp
  else .err (.UnexpectedEnum orig)

/-- `PixelFormat::from_string`: uppercase, then match (`WORD` routed to
`Half` and `LONG` routed to `Full`). -/
def PixelFormat.from_string (s : List Char) : PRes VicarError PixelFormat :=
  PixelFormat.fromUpper (upperList s) s

/-- The recognized uppercased `FORMAT` tokens (the match arms of
`PixelFormat::from_string`). -/
def pixelFormatTokens : List (List Char) :=
  ["BYTE".toList, "HALF".toList, "WORD".toList, "FULL".toList, "LONG".toList,
   "REAL".toList, "DOUB".toList, "COMP".toList, "COMPLEX".toList]

/-- `DataType` of `src/lib.rs`. -/
inductive DataType where
  | Image
  | Parms
  | Parm
  | Param
  | Graph1
  | Graph2
  | Graph3
  | Tabular
deriving DecidableEq, Repr

/-- `DataType::from_string`. -/
def DataType.from_string (s : List Char) : PRes VicarError DataType :=
  let u := upperList s
  if u = "IMAGE".toList then .ok .Image
  else if u = "PARMS".toList then .ok .Parms
  else if u = "PARM".toList then .ok .Parm
  else if u = "PARAM".toList then .ok .Param
  else if u = "GRAPH1".toList then .ok .Graph1
  else if u = "GRAPH2".toList then .ok .Graph2
  else if u = "GRAPH3".toList then .ok .Graph3
  else if u = "TABULAR".toList then .ok .Tabular
  else .err (.UnexpectedEnum s)

/-- `DataOrganization` of `src/lib.rs`. -/
inductive DataOrganization where
  | Bsq
  | Bil
  | Bip
deriving DecidableEq, Repr

/-- `DataOrganization::from_string`. -/
def DataOrganization.from_string (s : List Char) : PRes VicarError DataOrganization :=
  let u := upperList s
  if u = "BSQ".toList then .ok .Bsq
  else if u = "BIL".toList then .ok .Bil
  else if u = "BIP".toList then .ok .Bip
  else .err (.UnexpectedEnum s)

/-- `KeyValuePair` of `src/lib.rs` (key is plain text there). -/
structure KeyValuePair where
  key : List Char
  value : Value
deriving DecidableEq, Repr

/-- `VicarReader::_scan_for_property`: first index `i` with
`strings[i..i+|key|+1] = key ++ "="`, searching `i < len - |key ++ "="|`
only (so a match flush at the end of the text is not found), `Err(Eof)` when
absent.  When the text is shorter than the needle the Rust index arithmetic
panics (debug underflow / release out-of-bounds slice). -/
def scanForProperty (s key : List Char) : PRes VicarError Nat :=
  let keyEq := key ++ ['=']
  if s.length < keyEq.length then .panic
  else
    match (List.range (s.length - keyEq.length)).find?
        (fun i => decide ((s.drop i).take keyEq.length = keyEq)) with
    | some i => .ok i
    | none => .err .Eof

/-- `VicarReader::_extract_property_raw`: from the scan index, the text up
to (excluding) the first space strictly after the index; if no space
follows, the extracted slice is empty. -/
def extractPropertyRaw (s key : List Char) : PRes VicarError (List Char) :=
  match scanForProperty s key with
  | .ok index =>
    let stop := match (s.drop (index + 1)).findIdx? (fun c => c == ' ') with
      | some j => index + 1 + j
      | none => index
    .ok ((s.drop index).take (stop - index))
  | .err e => .err e
  | .panic => .panic
  | .timeout => .timeout

/-- `VicarReader::_get_property`: split the raw extract once on `=`; a
syntax error unless that yields exactly two parts; the right-hand side is
type-inferred via `Value::new`. -/
def getPropertyKV (s key : List Char) : PRes VicarError KeyValuePair :=
  match extractPropertyRaw s key with
  | .ok raw =>
    match splitOnChar '=' raw with
    | [k, v] => .ok ⟨k, Value.new v⟩
    | _ => .err (.Syntax "Property syntax error, missing or too many equality indicators")
  | .err e => .err e
  | .panic => .panic
  | .timeout => .timeout

/-- The `_get_property(..)?.value.parse_usize()?` chain used for each
numeric label field in `VicarReader::new`. -/
def getUsizeField (s key : List Char) : PRes VicarError Nat :=
  (getPropertyKV s key).bind fun p => p.value.parse_usize

/-- The `_get_property(..)?.value.parse_string()?` chain used for the
`TYPE`/`FORMAT`/`ORG` fields in `VicarReader::new`. -/
def getStringField (s key : List Char) : PRes VicarError (List Char) :=
  (getPropertyKV s key).bind fun p => p.value.parse_string

/-- `VicarReader::to_lines_samples_bands`. -/
def to_lines_samples_bands (n1 n2 n3 : Nat) (org : DataOrganization) : Nat × Nat × Nat :=
  match org with
  | .Bsq => (n2, n1, n3)
  | .Bil => (n3, n1, n2)
  | .Bip => (n3, n2, n1)

/-- The resolved geometry/encoding state of `VicarReader` (the external
`BinFileReader` handle is out of scope; `strings` is the lossily decoded
text). -/
structure VicarReader where
  data_start : Nat
  label_size : Nat
  dimensions : Nat
  binary_bytes_before_record : Nat
  binary_bytes_header : Nat
  recsize : Nat
  lines : Nat
  samples : Nat
  bands : Nat
  org : DataOrganization
  format : PixelFormat
  data_type : DataType
  strings : List Char
deriving DecidableEq, Repr

/-- `VicarReader::new` on the already-loaded label text (the file read and
the unused `_binary_header` byte read are external I/O).  Field order and
the `data_start = label_start + (nlb*recsize + lblsize) + nbb` composition
follow the source exactly. -/
def vicarNew (s : List Char) : PRes VicarError VicarReader :=
  (scanForProperty s "LBLSIZE".toList).bind fun label_start =>
  (getUsizeField s "LBLSIZE".toList).bind fun lblsize =>
  (getUsizeField s "RECSIZE".toList).bind fun recsize =>
  (getUsizeField s "DIM".toList).bind fun dim =>
  (getUsizeField s "N1".toList).bind fun n1 =>
  (getUsizeField s "N2".toList).bind fun n2 =>
  (getUsizeField s "N3".toList).bind fun n3 =>
  (getUsizeField s "NLB".toList).bind fun nlb =>
  (getUsizeField s "NBB".toList).bind fun nbb =>
  (getStringField s "TYPE".toList).bind fun tyS =>
  (DataType.from_string tyS).bind fun data_type =>
  (getStringField s "FORMAT".toList).bind fun fmtS =>
  (PixelFormat.from_string fmtS).bind fun format =>
  (getStringField s "ORG".toList).bind fun orgS =>
  (DataOrganization.from_string orgS).bind fun organization =>
  let lsb := to_lines_samples_bands n1 n2 n3 organization
  .ok
    { data_start := label_start + (nlb * recsize + lblsize) + nbb
      label_size := lblsize
      dimensions := dim
      binary_bytes_before_record := nbb
      binary_bytes_header := nlb
      recsize := recsize
      lines := lsb.1
      samples := lsb.2.1
      bands := lsb.2.2
      org := organization
      format := format
      data_type := data_type
      strings := s }

/-- `VicarReader::get_pixel_index`. -/
def VicarReader.get_pixel_index (r : VicarReader) (line sample band : Nat) : Nat :=
  (r.lines * r.samples * r.format.bytes_per_sample * band
      + line * r.binary_bytes_before_record)
    + line * r.samples * r.format.bytes_per_sample
    + sample * r.format.bytes_per_sample

/-- The absolute byte offset `start = data_start + byte_index` at which
`VicarReader::get_pixel_value` asks the byte reader for the sample (the
typed decode itself is the external reader's job). -/
def VicarReader.pixel_read_start (r : VicarReader) (line sample band : Nat) : Nat :=
  r.data_start + r.get_pixel_index line sample band

end Vicar

namespace PvlM

/-! ## `src/pvl.rs`: value typing (double-quote variant), the character
scanner, and the structural parser -/

/-- `Error` of `src/pvl.rs`. -/
inductive PvlError where
  | Eof
  | Syntax (msg : String)
  | CommentIsntComment
  | Programming (msg : String)
  | InvalidType
  | ValueTypeParseError
  | InvalidEncoding (msg : String)
  | General (msg : String)
deriving DecidableEq, Repr

/-- `Symbol` of `src/pvl.rs`. -/
inductive Symbol where
  | Pointer (name : List Char)
  | Key (name : List Char)
  | Group
  | Object
  | BlankLine
  | ValueLineContinuation
  | GroupEnd
  | ObjectEnd
  | End
deriving DecidableEq, Repr

/-- `ValueType` of `src/pvl.rs` (textually identical to the lib.rs one). -/
inductive ValueType where
  | Undetermined
  | Array
  | String
  | Float
  | Integer
  | Bool
  | Flag
  | BitMask
deriving DecidableEq, Repr

/-- `Value` of `src/pvl.rs`. -/
structure Value where
  value_raw : List Char
  value_type : ValueType
deriving DecidableEq, Repr

/-- `BOOL_DETERMINATE` regex `^"(TRUE|FALSE)"$` (double quotes only in
pvl.rs). -/
def boolDeterminate (s : List Char) : Bool :=
  match s with
  | [q1, 'T', 'R', 'U', 'E', q2] => q1 == dq && q2 == dq
  | [q1, 'F', 'A', 'L', 'S', 'E', q2] => q1 == dq && q2 == dq
  | _ => false

/-- `STRING_DETERMINATE` regex `^".*"$` (double quotes only; regex `.`
excludes `\n`). -/
def stringDeterminate (s : List Char) : Bool :=
  match s with
  | c :: rest => c == dq && Vicar.closedTail (fun c => c == dq) rest
  | [] => false

/-- `ARRAY_DETERMINATE` regex `^\(.*\)$` (same as lib.rs). -/
def arrayDeterminate (s : List Char) : Bool := Vicar.arrayDeterminate s

/-- `Value::determine_type` of `src/pvl.rs` (same ordered decision list;
only the two quoted-literal regexes differ from lib.rs). -/
def Value.determine_type (value_raw : List Char) : ValueType :=
  if boolDeterminate value_raw then .Bool
  else if stringDeterminate value_raw then .String
  else if arrayDeterminate value_raw then .Array
  else if Vicar.floatDeterminate value_raw then .Float
  else if Vicar.bitmaskDeterminate value_raw then .BitMask
  else if Vicar.integerDeterminate value_raw then .Integer
  else if Vicar.flagDeterminate value_raw then .Flag
  else .Undetermined

/-- `Value::new` of `src/pvl.rs`. -/
def Value.new (value_raw : List Char) : Value :=
  ⟨value_raw, Value.determine_type value_raw⟩

/-- The body generated by the `impl_parse_pvl_fn!` macro of `src/pvl.rs`. -/
def implParseFn {α : Type} (parseNative : List Char → Option α)
    (expected : ValueType) (v : Value) : PRes PvlError α :=
  if v.value_type ≠ .Undetermined ∧ v.value_type ≠ expected then .err .InvalidType
  else
    match parseNative v.value_raw with
    | some x => .ok x
    | none => .err .ValueTypeParseError

/-- `Value::parse_usize` of `src/pvl.rs`. -/
def Value.parse_usize (v : Value) : PRes PvlError Nat :=
  implParseFn parseUsizeText .Integer v

/-- `Value::parse_flag` of `src/pvl.rs` (`String`'s `FromStr` never
fails). -/
def Value.parse_flag (v : Value) : PRes PvlError (List Char) :=
  implParseFn (fun s => some s) .Flag v

/-- `Value::parse_string` of `src/pvl.rs`: strips `"` only. -/
def Value.parse_string (v : Value) : PRes PvlError (List Char) :=
  if v.value_type ≠ .Undetermined ∧ v.value_type ≠ .String then .err .InvalidType
  else .ok (v.value_raw.filter (fun c => !(c == dq)))

/-- `Value::parse_array` of `src/pvl.rs` (same body as the lib.rs one). -/
def Value.parse_array (v : Value) : PRes PvlError (List Value) :=
  if v.value_type ≠ .Array then .err .InvalidType
  else if v.value_raw.length < 2 then .panic
  else .ok (((splitOnChar ',' ((v.value_raw.drop 1).take (v.value_raw.length - 2))).map Value.new))

/-- `KeyValuePair` of `src/pvl.rs` (key is a `Symbol` here). -/
structure KeyValuePair where
  key : Symbol
  value : Value
deriving DecidableEq, Repr

/-- Does the pair's key match `name`, as in the `get_property!` /
`has_property!` macros: a `Key` or `Pointer` symbol whose text equals the
query. -/
def keyMatches (name : List Char) (p : KeyValuePair) : Bool :=
  match p.key with
  | .Key n => n == name
  | .Pointer n => n == name
  | _ => false

/-- First property matching `name` (the `filter(..).next()` of the
macros). -/
def findProperty (props : List KeyValuePair) (name : List Char) : Option KeyValuePair :=
  props.find? (keyMatches name)

/-- The `get_property!` macro body: `Some(filter(..).next().unwrap())` —
panics when no property matches, and otherwise returns `Some` of the first
match; it can never return `None`. -/
def getPropertyImpl (props : List KeyValuePair) (name : List Char) :
    PRes PvlError (Option KeyValuePair) :=
  match findProperty props name with
  | some p => .ok (some p)
  | none => .panic

/-- The `has_property!` macro body: `filter(..).collect().len() > 0`. -/
def hasPropertyImpl (props : List KeyValuePair) (name : List Char) : Bool :=
  decide (0 < (props.filter (keyMatches name)).length)

/-- `Group` of `src/pvl.rs`. -/
structure Group where
  name : List Char
  properties : List KeyValuePair
deriving DecidableEq, Repr

/-- `Object` of `src/pvl.rs`. -/
structure Object where
  name : List Char
  properties : List KeyValuePair
deriving DecidableEq, Repr

/-- `PropertyGrouping::get_property` for `Group`. -/
def Group.get_property (g : Group) (name : List Char) : PRes PvlError (Option KeyValuePair) :=
  getPropertyImpl g.properties name

/-- `PropertyGrouping::has_property` for `Group`. -/
def Group.has_property (g : Group) (name : List Char) : Bool :=
  hasPropertyImpl g.properties name

/-- `PropertyGrouping::get_property` for `Object`. -/
def Object.get_property (o : Object) (name : List Char) : PRes PvlError (Option KeyValuePair) :=
  getPropertyImpl o.properties name

/-- `PropertyGrouping::has_property` for `Object`. -/
def Object.has_property (o : Object) (name : List Char) : Bool :=
  hasPropertyImpl o.properties name

/-- The `PvlReader` cursor: the (CR-filtered) content and the caret. -/
structure PvlSt where
  content : List Char
  pos : Nat
deriving DecidableEq, Repr

/-- `PvlReader::filter_linefeeds`. -/
def filterLinefeeds (content : List Char) : List Char :=
  content.filter (fun c => c != '\r')

/-- `PvlReader::char_at`. -/
def charAt (st : PvlSt) (indx : Nat) : PRes PvlError Char :=
  match st.content[indx]? with
  | some c => .ok c
  | none => .err .Eof

/-- `PvlReader::current_char`. -/
def currentChar (st : PvlSt) : PRes PvlError Char := charAt st st.pos

/-- `PvlReader::is_eof`. -/
def isEof (st : PvlSt) : Bool := decide (st.pos ≥ st.content.length)

/-- `PvlReader::has_n_remaining`. -/
def hasNRemaining (st : PvlSt) (n : Nat) : Bool := decide (st.pos + n < st.content.length)

/-- `PvlReader::next_char`: advance the caret, then read (an `Err(Eof)`
result still leaves the caret advanced). -/
def nextChar (st : PvlSt) : PRes PvlError Char × PvlSt :=
  let st1 : PvlSt := ⟨st.content, st.pos + 1⟩
  (currentChar st1, st1)

/-- `PvlReader::jump`: `Err(Eof)` when already at end, otherwise advance by
`num_chars` clamped to the end of the content. -/
def jump (st : PvlSt) (numChars : Nat) : PRes PvlError Unit × PvlSt :=
  if isEof st then (.err .Eof, st)
  else
    let d := if st.content.length ≤ st.pos + numChars then st.content.length - st.pos
      else numChars
    (.ok (), ⟨st.content, st.pos + d⟩)

/-- `PvlReader::is_at_line_start`: position 0, or the previous character is
a line terminator.  (The dead `pos - 1 > len` guard and the `unwrap` of the
previous-character read are preserved.) -/
def isAtLineStart (st : PvlSt) : PRes PvlError Bool :=
  if 0 < st.pos ∧ st.content.length < st.pos - 1 then .err .Eof
  else if st.pos = 0 then .ok true
  else
    match charAt st (st.pos - 1) with
    | .ok c => .ok (c == '\r' || c == '\n')
    | _ => .panic

/-- `PvlReader::is_at_multiline_comment_start`. -/
def isAtMultilineCommentStart (st : PvlSt) : PRes PvlError Bool :=
  if isEof st || decide (st.content.length ≤ st.pos + 1) then .ok false
  else
    match currentChar st, charAt st (st.pos + 1) with
    | .ok c, .ok n => .ok (c == '/' && n == '*')
    | _, _ => .panic

/-- `PvlReader::is_at_multiline_comment_end`. -/
def isAtMultilineCommentEnd (st : PvlSt) : PRes PvlError Bool :=
  if decide (st.content.length ≤ st.pos + 1) then .ok false
  else
    match currentChar st, charAt st (st.pos + 1) with
    | .ok c, .ok n => .ok (c == '*' && n == '/')
    | _, _ => .panic

/-- The `while !is_at_multiline_comment_end` loop of
`skip_multiline_comment`: `comment_text.push(next_char().unwrap())`. -/
def skipCommentLoop : Nat → PvlSt → List Char → PRes PvlError (List Char) × PvlSt
  | 0, st, _ => (.timeout, st)
  | fuel + 1, st, acc =>
    match isAtMultilineCommentEnd st with
    | .ok true => (.ok acc, st)
    | .ok false =>
      match nextChar st with
      | (.ok c, st1) => skipCommentLoop fuel st1 (acc ++ [c])
      | (_, st1) => (.panic, st1)
    | _ => (.panic, st)

/-- `PvlReader::skip_multiline_comment`: guard, capture loop, `jump(2)`,
then the `comment_text[1..len-2]` slice (a panicking slice when the capture
is shorter than three characters). -/
def skipMultilineComment (st : PvlSt) : PRes PvlError (List Char) × PvlSt :=
  match isAtMultilineCommentStart st with
  | .ok false => (.err .CommentIsntComment, st)
  | .ok true =>
    match skipCommentLoop (st.content.length + 2) st [] with
    | (.ok acc, st1) =>
      match jump st1 2 with
      | (.ok _, st2) =>
        if acc.length < 3 then (.panic, st2)
        else (.ok ((acc.drop 1).take (acc.length - 3)), st2)
      | (_, st2) => (.panic, st2)
    | (r, st1) =>
      match r with
      | .timeout => (.timeout, st1)
      | _ => (.panic, st1)
  | _ => (.panic, st)

/-- `PvlReader::is_at_group`: literal `GROUP` prefix comparison at a line
start; `Err(Programming)` when not at a line start. -/
def isAtGroup (st : PvlSt) : PRes PvlError Bool :=
  if !hasNRemaining st 5 then .ok false
  else
    match isAtLineStart st with
    | .ok false => .err (.Programming "Attempt to check if at group when not at start of line")
    | .ok true => .ok (decide ((st.content.drop st.pos).take 5 = "GROUP".toList))
    | _ => .panic

/-- `PvlReader::is_at_object`: literal `OBJECT` prefix comparison (no
line-start check in the source). -/
def isAtObject (st : PvlSt) : PRes PvlError Bool :=
  if !hasNRemaining st 6 then .ok false
  else .ok (decide ((st.content.drop st.pos).take 6 = "OBJECT".toList))

/-- `PvlReader::is_at_end`: literal `END` prefix comparison. -/
def isAtEnd (st : PvlSt) : Bool :=
  hasNRemaining st 3 && decide ((st.content.drop st.pos).take 3 = "END".toList)

/-- The 100-character blank-line lookahead of `is_blank_line`: scans forward
until a newline, the end of the content, or 100 characters, reporting
whether a non-space was seen. -/
def blankScanFoundNonWs : Nat → List Char → Nat → Bool
  | 0, _, _ => false
  | fuel + 1, content, j =>
    match content[j]? with
    | none => false
    | some c =>
      if c = '\n' then false
      else (c != ' ') || blankScanFoundNonWs fuel content (j + 1)

/-- `PvlReader::is_blank_line`. -/
def isBlankLine (st : PvlSt) : PRes PvlError Bool :=
  match isAtLineStart st with
  | .ok false => .err (.Programming "Blank line check when not at start of line")
  | .ok true =>
    if isEof st then .err .Eof
    else .ok (!blankScanFoundNonWs 100 st.content st.pos)
  | .err e => .err e
  | r =>
    match r with
    | .timeout => .timeout
    | _ => .panic

/-- `PvlReader::is_at_value_line_continuation`: at a line start, the next 37
characters are all spaces; `Err(Eof)` when fewer than 38 characters remain;
`Ok(false)` when not at a line start. -/
def isAtValueLineContinuation (st : PvlSt) : PRes PvlError Bool :=
  match isAtLineStart st with
  | .ok false => .ok false
  | .ok true =>
    if st.content.length ≤ st.pos + 37 then .err .Eof
    else .ok (decide ((st.content.drop st.pos).take 37 = List.replicate 37 ' '))
  | _ => .panic

/-- The symbol-accumulation loop of `read_symbol`: push characters until a
line terminator, `=`, or end of input; `next_char().unwrap()` panics when
the advance lands exactly at the end. -/
def readSymbolLoop : Nat → PvlSt → List Char → PRes PvlError (List Char) × PvlSt
  | 0, st, _ => (.timeout, st)
  | fuel + 1, st, acc =>
    if isEof st then (.ok acc, st)
    else
      match currentChar st with
      | .ok c =>
        if c ≠ '\n' ∧ c ≠ '\r' ∧ c ≠ '=' then
          match nextChar st with
          | (.ok _, st1) => readSymbolLoop fuel st1 (acc ++ [c])
          | (_, st1) => (.panic, st1)
        else (.ok acc, st)
      | _ => (.panic, st)

/-- The symbol classification at the end of `read_symbol`. -/
def classifySymbol (s : List Char) : Symbol :=
  if s = [] then .BlankLine
  else if s.head? = some '^' then .Pointer s
  else if s = "GROUP".toList then .Group
  else if s = "OBJECT".toList then .Object
  else if s = "END_GROUP".toList then .GroupEnd
  else if s = "END_OBJECT".toList then .ObjectEnd
  else if s = "END".toList then .End
  else .Key s

/-- `PvlReader::read_symbol`. -/
def readSymbol (st : PvlSt) : PRes PvlError Symbol × PvlSt :=
  match isAtValueLineContinuation st with
  | .ok true =>
    (.err (.Syntax "Value line continuation without a preceeding key value pair"), st)
  | .ok false =>
    match isAtLineStart st with
    | .ok false =>
      (.err (.Programming "Attempt to read a key value pair when not at beginning of a line"), st)
    | .ok true =>
      match readSymbolLoop (st.content.length + 2) st [] with
      | (.ok txt, st1) => (.ok (classifySymbol (trimL txt)), st1)
      | (.timeout, st1) => (.timeout, st1)
      | (_, st1) => (.panic, st1)
    | _ => (.panic, st)
  | .err _ => (.panic, st)
  | .timeout => (.timeout, st)
  | .panic => (.panic, st)

/-- The accumulation loop of `read_remaining_line`: an `=` makes the caret
jump two characters (skipping the character right after the `=` as well);
characters accumulate until a line terminator; the in-loop
`if !is_eof { next_char()? }` propagates `Err(Eof)` when the line runs into
the end of the content. -/
def readRemainingLineLoop : Nat → PvlSt → List Char → PRes PvlError (List Char) × PvlSt
  | 0, st, _ => (.timeout, st)
  | fuel + 1, st, acc =>
    if isEof st then (.ok acc, st)
    else
      match currentChar st with
      | .ok c0 =>
        let jr := if c0 = '=' then jump st 2 else (.ok (), st)
        match jr with
        | (.ok _, st1) =>
          match currentChar st1 with
          | .ok c =>
            if c ≠ '\n' ∧ c ≠ '\r' then
              if isEof st1 then readRemainingLineLoop fuel st1 (acc ++ [c])
              else
                match nextChar st1 with
                | (.ok _, st2) => readRemainingLineLoop fuel st2 (acc ++ [c])
                | (.err e, st2) => (.err e, st2)
                | (_, st2) => (.panic, st2)
            else (.ok acc, st1)
          | _ => (.panic, st1)
        | (_, st1) => (.panic, st1)
      | _ => (.panic, st)

/-- `PvlReader::read_remaining_line` (result trimmed). -/
def readRemainingLine (st : PvlSt) : PRes PvlError (List Char) × PvlSt :=
  match readRemainingLineLoop (st.content.length + 2) st [] with
  | (.ok acc, st1) => (.ok (trimL acc), st1)
  | r => r

/-- `PvlReader::jump_to_next_line`: skips consecutive newlines only (a
caret not on a newline does not move); the `char_at(pos).unwrap()` at
`pos = len` panics, and the `next_char()?` that lands at the end propagates
`Err(Eof)`. -/
def jumpToNextLineLoop : Nat → PvlSt → PRes PvlError Unit × PvlSt
  | 0, st => (.timeout, st)
  | fuel + 1, st =>
    if st.pos ≤ st.content.length then
      match charAt st st.pos with
      | .ok c =>
        if c = '\n' then
          match nextChar st with
          | (.ok _, st1) => jumpToNextLineLoop fuel st1
          | (.err e, st1) => (.err e, st1)
          | (_, st1) => (.panic, st1)
        else (.ok (), st)
      | _ => (.panic, st)
    else (.ok (), st)

/-- `PvlReader::jump_to_next_line`. -/
def jumpToNextLine (st : PvlSt) : PRes PvlError Unit × PvlSt :=
  jumpToNextLineLoop (st.content.length + 2) st

/-- The continuation-merging loop of `read_key_value_pair_raw`: while the
continuation check answers `Ok(true)`, append the (trimmed) remainder of the
line with no separator; an `Err` from the check ends the loop normally. -/
def readKVPLoop : Nat → PvlSt → List Char → PRes PvlError (List Char) × PvlSt
  | 0, st, _ => (.timeout, st)
  | fuel + 1, st, acc =>
    match isAtValueLineContinuation st with
    | .ok true =>
      match readRemainingLine st with
      | (.ok v, st1) =>
        match nextChar st1 with
        | (.ok _, st2) => readKVPLoop fuel st2 (acc ++ v)
        | (.err e, st2) => (.err e, st2)
        | (_, st2) => (.panic, st2)
      | (.timeout, st1) => (.timeout, st1)
      | (_, st1) => (.panic, st1)
    | .ok false => (.ok acc, st)
    | .err _ => (.ok acc, st)
    | .timeout => (.timeout, st)
    | .panic => (.panic, st)

/-- `PvlReader::read_key_value_pair_raw`: guards (whose `unwrap` panics
within 37 characters of the end of the content), symbol read, first value
line, `next_char()?`, then the continuation loop; the merged text becomes
the pair's `Value`. -/
def readKeyValuePairRaw (st : PvlSt) : PRes PvlError KeyValuePair × PvlSt :=
  match isAtValueLineContinuation st with
  | .ok true =>
    (.err (.Syntax "Value line continuation without a preceeding key value pair"), st)
  | .ok false =>
    match isAtLineStart st with
    | .ok false =>
      (.err (.Programming "Attempt to read a key value pair when not at beginning of a line"), st)
    | .ok true =>
      match readSymbol st with
      | (.ok key, st1) =>
        match readRemainingLine st1 with
        | (.ok v1, st2) =>
          match nextChar st2 with
          | (.ok _, st3) =>
            match readKVPLoop (st3.content.length + 2) st3 v1 with
            | (.ok vs, st4) => (.ok ⟨key, Value.new vs⟩, st4)
            | (.err e, st4) => (.err e, st4)
            | (.timeout, st4) => (.timeout, st4)
            | (.panic, st4) => (.panic, st4)
          | (.err e, st3) => (.err e, st3)
          | (_, st3) => (.panic, st3)
        | (.timeout, st2) => (.timeout, st2)
        | (_, st2) => (.panic, st2)
      | (.err _, st1) => (.panic, st1)
      | (.timeout, st1) => (.timeout, st1)
      | (.panic, st1) => (.panic, st1)
    | _ => (.panic, st)
  | .err _ => (.panic, st)
  | .timeout => (.timeout, st)
  | .panic => (.panic, st)

/-- The property-collection loop of `read_group`: skip blank lines, read
pairs until a `GroupEnd` key (consumed, not stored). -/
def readGroupLoop : Nat → PvlSt → List KeyValuePair → PRes PvlError (List KeyValuePair) × PvlSt
  | 0, st, _ => (.timeout, st)
  | fuel + 1, st, props =>
    if isEof st then (.ok props, st)
    else
      match isBlankLine st with
      | .ok false =>
        match readKeyValuePairRaw st with
        | (.ok kvp, st1) =>
          if kvp.key = .GroupEnd then (.ok props, st1)
          else readGroupLoop fuel st1 (props ++ [kvp])
        | (.err e, st1) => (.err e, st1)
        | (.timeout, st1) => (.timeout, st1)
        | (.panic, st1) => (.panic, st1)
      | .ok true =>
        match nextChar st with
        | (.ok _, st1) => readGroupLoop fuel st1 props
        | (.err e, st1) => (.err e, st1)
        | (_, st1) => (.panic, st1)
      | .err e => (.err e, st)
      | .timeout => (.timeout, st)
      | .panic => (.panic, st)

/-- `PvlReader::read_group`. -/
def readGroup (st : PvlSt) : PRes PvlError Group × PvlSt :=
  if isEof st then (.err .Eof, st)
  else
    match isAtGroup st with
    | .ok false => (.err (.Programming "Attempted to read a group when not at a group start"), st)
    | .ok true =>
      match readKeyValuePairRaw st with
      | (.ok gs, st1) =>
        match gs.value.parse_flag with
        | .ok nm =>
          match readGroupLoop (st1.content.length + 2) st1 [] with
          | (.ok props, st2) => (.ok ⟨nm, props⟩, st2)
          | (.err e, st2) => (.err e, st2)
          | (.timeout, st2) => (.timeout, st2)
          | (.panic, st2) => (.panic, st2)
        | .err e => (.err e, st1)
        | _ => (.panic, st1)
      | (.err e, st1) => (.err e, st1)
      | (.timeout, st1) => (.timeout, st1)
      | (.panic, st1) => (.panic, st1)
    | .err e => (.err e, st)
    | .timeout => (.timeout, st)
    | .panic => (.panic, st)

/-- The property-collection loop of `read_object` (identical to the group
one apart from the `ObjectEnd` terminator). -/
def readObjectLoop : Nat → PvlSt → List KeyValuePair → PRes PvlError (List KeyValuePair) × PvlSt
  | 0, st, _ => (.timeout, st)
  | fuel + 1, st, props =>
    if isEof st then (.ok props, st)
    else
      match isBlankLine st with
      | .ok false =>
        match readKeyValuePairRaw st with
        | (.ok kvp, st1) =>
          if kvp.key = .ObjectEnd then (.ok props, st1)
          else readObjectLoop fuel st1 (props ++ [kvp])
        | (.err e, st1) => (.err e, st1)
        | (.timeout, st1) => (.timeout, st1)
        | (.panic, st1) => (.panic, st1)
      | .ok true =>
        match nextChar st with
        | (.ok _, st1) => readObjectLoop fuel st1 props
        | (.err e, st1) => (.err e, st1)
        | (_, st1) => (.panic, st1)
      | .err e => (.err e, st)
      | .timeout => (.timeout, st)
      | .panic => (.panic, st)

/-- `PvlReader::read_object`. -/
def readObject (st : PvlSt) : PRes PvlError Object × PvlSt :=
  if isEof st then (.err .Eof, st)
  else
    match isAtObject st with
    | .ok false => (.err (.Programming "Attempted to read an object when not at an object start"), st)
    | .ok true =>
      match readKeyValuePairRaw st with
      | (.ok os, st1) =>
        match os.value.parse_flag with
        | .ok nm =>
          match readObjectLoop (st1.content.length + 2) st1 [] with
          | (.ok props, st2) => (.ok ⟨nm, props⟩, st2)
          | (.err e, st2) => (.err e, st2)
          | (.timeout, st2) => (.timeout, st2)
          | (.panic, st2) => (.panic, st2)
        | .err e => (.err e, st1)
        | _ => (.panic, st1)
      | (.err e, st1) => (.err e, st1)
      | (.timeout, st1) => (.timeout, st1)
      | (.panic, st1) => (.panic, st1)
    | .err e => (.err e, st)
    | .timeout => (.timeout, st)
    | .panic => (.panic, st)

/-- `Pvl` of `src/pvl.rs`. -/
structure Pvl where
  properties : List KeyValuePair
  groups : List Group
  objects : List Object
deriving DecidableEq, Repr

/-- The tail of each iteration of the `Pvl::from_string` loop: the
`if !is_eof && !is_at_end { jump_to_next_line()? }` step followed by the
next loop state (`recurse`), or loop exit when the condition fails. -/
def fromStringContinue (recurse : Pvl → PvlSt → PRes PvlError Pvl × PvlSt)
    (pvl : Pvl) (st : PvlSt) : PRes PvlError Pvl × PvlSt :=
  if isEof st || isAtEnd st then (.ok pvl, st)
  else
    match jumpToNextLine st with
    | (.ok _, st1) => recurse pvl st1
    | (.err e, st1) => (.err e, st1)
    | (.timeout, st1) => (.timeout, st1)
    | (.panic, st1) => (.panic, st1)

/-- The `while !is_eof && !is_at_end` loop of `Pvl::from_string`.  An `Err`
from a top-level `read_key_value_pair_raw` is silently discarded by the
`if let Ok(kvp)` pattern: the loop continues with the document unchanged.
Group/object/comment errors abort via `unwrap` (a panic), and a pair whose
key is `End` breaks out returning the document. -/
def fromStringLoop : Nat → Pvl → PvlSt → PRes PvlError Pvl × PvlSt
  | 0, _, st => (.timeout, st)
  | fuel + 1, pvl, st =>
    if isEof st || isAtEnd st then (.ok pvl, st)
    else
      match isAtMultilineCommentStart st with
      | .ok true =>
        match skipMultilineComment st with
        | (.ok _, st1) => fromStringContinue (fromStringLoop fuel) pvl st1
        | (.timeout, st1) => (.timeout, st1)
        | (_, st1) => (.panic, st1)
      | .ok false =>
        match isAtLineStart st with
        | .ok true =>
          match isBlankLine st with
          | .ok false =>
            match isAtGroup st with
            | .ok true =>
              match readGroup st with
              | (.ok g, st1) =>
                fromStringContinue (fromStringLoop fuel)
                  ⟨pvl.properties, pvl.groups ++ [g], pvl.objects⟩ st1
              | (.timeout, st1) => (.timeout, st1)
              | (_, st1) => (.panic, st1)
            | .ok false =>
              match isAtObject st with
              | .ok true =>
                match readObject st with
                | (.ok o, st1) =>
                  fromStringContinue (fromStringLoop fuel)
                    ⟨pvl.properties, pvl.groups, pvl.objects ++ [o]⟩ st1
                | (.timeout, st1) => (.timeout, st1)
                | (_, st1) => (.panic, st1)
              | .ok false =>
                match readKeyValuePairRaw st with
                | (.ok kvp, st1) =>
                  if kvp.key = .End then (.ok pvl, st1)
                  else
                    fromStringContinue (fromStringLoop fuel)
                      ⟨pvl.properties ++ [kvp], pvl.groups, pvl.objects⟩ st1
                | (.err _, st1) => fromStringContinue (fromStringLoop fuel) pvl st1
                | (.timeout, st1) => (.timeout, st1)
                | (.panic, st1) => (.panic, st1)
              | .timeout => (.timeout, st)
              | _ => (.panic, st)
            | .timeout => (.timeout, st)
            | _ => (.panic, st)
          | .ok true => fromStringContinue (fromStringLoop fuel) pvl st
          | .timeout => (.timeout, st)
          | _ => (.panic, st)
        | .ok false => fromStringContinue (fromStringLoop fuel) pvl st
        | .timeout => (.timeout, st)
        | _ => (.panic, st)
      | .timeout => (.timeout, st)
      | _ => (.panic, st)

/-- `Pvl::from_string` (with explicit fuel for the top-level loop, which
can genuinely fail to advance). -/
def fromString (fuel : Nat) (content : List Char) : PRes PvlError Pvl :=
  (fromStringLoop fuel ⟨[], [], []⟩ ⟨filterLinefeeds content, 0⟩).1

/-- `Pvl::get_property` (plain `Option`, no panic at this level). -/
def Pvl.get_property (pvl : Pvl) (name : List Char) : Option KeyValuePair :=
  findProperty pvl.properties name

/-- `Pvl::get_group`. -/
def Pvl.get_group (pvl : Pvl) (name : List Char) : Option Group :=
  pvl.groups.find? (fun g => g.name == name)

/-- `Pvl::get_object`. -/
def Pvl.get_object (pvl : Pvl) (name : List Char) : Option Object :=
  pvl.objects.find? (fun o => o.name == name)

end PvlM

namespace Vicar

/-! ## The detached-label construction path of `src/lib.rs` -/

/-- One `image_object.get_property(NAME).unwrap().value.parse_usize()
.unwrap_or(0)` dimension lookup of `VicarReader::new_from_detached_label`:
`get_property` itself panics when the property is absent; only a present
but unparsable value falls back to 0. -/
def lookupDimension (o : PvlM.Object) (name : List Char) : PRes PvlM.PvlError Nat :=
  match o.get_property name with
  | .ok (some kvp) =>
    .ok (match kvp.value.parse_usize with
      | .ok v => v
      | _ => 0)
  | .ok none => .panic
  | .err _ => .panic
  | .timeout => .timeout
  | .panic => .panic

/-- The label-resolution core of `VicarReader::new_from_detached_label`, on
an already-parsed document: locate the `IMAGE` object
(`Err(PropertyNotFound)` when absent), read the three dimensions, then the
`^IMAGE` pointer filename chain (every link an `unwrap`).  Returns the
resolved `(lines, samples, bands, filename)`; the referenced file read is
external I/O. -/
def newFromDetachedLabelCore (pvl : PvlM.Pvl) :
    PRes VicarError (Nat × Nat × Nat × List Char) :=
  match pvl.get_object "IMAGE".toList with
  | none => .err (.PropertyNotFound "IMAGE")
  | some image_object =>
    match lookupDimension image_object "LINES".toList with
    | .ok lines =>
      match lookupDimension image_object "LINE_SAMPLES".toList with
      | .ok samples =>
        match lookupDimension image_object "BANDS".toList with
        | .ok bands =>
          match pvl.get_property "^IMAGE".toList with
          | none => .panic
          | some p =>
            match p.value.parse_array with
            | .ok arr =>
              match arr.head? with
              | none => .panic
              | some v0 =>
                match v0.parse_string with
                | .ok filename => .ok (lines, samples, bands, filename)
                | _ => .panic
            | _ => .panic
        | .timeout => .timeout
        | _ => .panic
      | .timeout => .timeout
      | _ => .panic
    | .timeout => .timeout
    | _ => .panic

end Vicar

/-! ## Concrete example inputs used by witnesses and counterexamples -/

/-- A minimal embedded VICAR label text on which `VicarReader::new`
succeeds. -/
def exampleEmbeddedLabel : List Char :=
  "LBLSIZE=100 RECSIZE=100 DIM=3 N1=4 N2=4 N3=1 NLB=0 NBB=0 TYPE='IMAGE' FORMAT='BYTE' ORG='BSQ' ".toList

/-- The reader state `VicarReader::new` resolves from
`exampleEmbeddedLabel`. -/
def exampleVicarReader : Vicar.VicarReader :=
  { data_start := 100
    label_size := 100
    dimensions := 3
    binary_bytes_before_record := 0
    binary_bytes_header := 0
    recsize := 100
    lines := 4
    samples := 4
    bands := 1
    org := .Bsq
    format := .Byte
    data_type := .Image
    strings := exampleEmbeddedLabel }

/-- A detached-label document text whose `IMAGE` object carries
`LINE_SAMPLES` and `BANDS` but no `LINES` property (the trailing `Z`
padding keeps every key-value line more than 37 characters from the end of
the text, as real labels do). -/
def exampleDetachedLabelText : List Char :=
  "OBJECT = IMAGE\nLINE_SAMPLES = 10\nBANDS = 1\nEND_OBJECT\nEND\n".toList
    ++ List.replicate 40 'Z'

/-- The `IMAGE` object parsed from `exampleDetachedLabelText`. -/
def exampleImageObject : PvlM.Object :=
  ⟨"IMAGE".toList,
    [⟨.Key "LINE_SAMPLES".toList, PvlM.Value.new "10".toList⟩,
     ⟨.Key "BANDS".toList, PvlM.Value.new "1".toList⟩]⟩

/-- The document parsed from `exampleDetachedLabelText`. -/
def exampleDetachedPvl : PvlM.Pvl := ⟨[], [], [exampleImageObject]⟩

/-- A single non-blank key-value line whose read fails with `Err(Eof)` (the
`next_char()?` after the line's final newline runs past the end), which
`Pvl::from_string` then silently skips. -/
def exampleSkippedLineText : List Char :=
  "K=0123456789012345678901234567890123456789\n".toList

/-- A two-line pair `KEY1 = A=B` continued (37-space prefix) by `CD`, whose
first value fragment contains an `=`: `read_remaining_line` jumps two
characters at every `=` it sees, so the fragment `A=B` is read as just `A`
and the merged raw text is `ACD`, not the fragment concatenation `A=BCD`. -/
def exampleEqualsValueText : List Char :=
  "KEY1 = A=B\n".toList ++ List.replicate 37 ' ' ++ "CD\nX".toList

/-! ## Helper lemmas -/

/-- Inversion for the `?`-operator model. -/
theorem PRes.bind_eq_ok {ε α β : Type} (x : PRes ε α) (f : α → PRes ε β) (b : β) :
    x.bind f = .ok b ↔ ∃ a, x = .ok a ∧ f a = .ok b := by
  cases x <;> simp [PRes.bind]

/-- `has_property = false` forces the first-match search to come up empty. -/
theorem findProperty_eq_none_of_not_has (props : List PvlM.KeyValuePair) (name : List Char)
    (h : PvlM.hasPropertyImpl props name = false) : PvlM.findProperty props name = none := by
  unfold PvlM.hasPropertyImpl at h
  unfold PvlM.findProperty
  rw [List.find?_eq_none]
  intro x hx hpx
  simp only [decide_eq_false_iff_not, Nat.not_lt, Nat.le_zero] at h
  rw [List.length_eq_zero, List.filter_eq_nil_iff] at h
  exact h x hx hpx

/-- `has_property = true` is equivalent to the first-match search
succeeding. -/
theorem hasPropertyImpl_iff_find (props : List PvlM.KeyValuePair) (name : List Char) :
    PvlM.hasPropertyImpl props name = true ↔
      ∃ p, PvlM.findProperty props name = some p := by
  unfold PvlM.hasPropertyImpl PvlM.findProperty
  rw [decide_eq_true_iff]
  constructor
  · intro h
    have : ∃ x ∈ props, PvlM.keyMatches name x := by
      rcases List.exists_mem_of_length_pos h with ⟨x, hx⟩
      exact ⟨x, (List.mem_filter.mp hx).1, (List.mem_filter.mp hx).2⟩
    rcases this with ⟨x, hx, hpx⟩
    rcases Option.isSome_iff_exists.mp (List.find?_isSome.mpr ⟨x, hx, hpx⟩) with ⟨p, hp⟩
    exact ⟨p, hp⟩
  · rintro ⟨p, hp⟩
    have hmem := List.find?_some hp
    have hmem2 := List.mem_of_find?_eq_some hp
    rw [List.length_pos]
    intro hnil
    exact List.filter_eq_nil_iff.mp hnil p hmem2 hmem

/-! ## Claim theorems -/

/-- C2: the label resolver reorders the on-disk axis lengths `(N1,N2,N3)`
into `(lines, samples, bands)` as `Bsq ↦ (N2,N1,N3)`, `Bil ↦ (N3,N1,N2)`,
`Bip ↦ (N3,N2,N1)`; in particular `N1=5, N2=10, N3=3` under `Bil` resolves
to `(3,5,10)`. -/
theorem C2_dimension_reordering :
    (∀ n1 n2 n3 : Nat,
      Vicar.to_lines_samples_bands n1 n2 n3 .Bsq = (n2, n1, n3) ∧
      Vicar.to_lines_samples_bands n1 n2 n3 .Bil = (n3, n1, n2) ∧
      Vicar.to_lines_samples_bands n1 n2 n3 .Bip = (n3, n2, n1)) ∧
    Vicar.to_lines_samples_bands 5 10 3 .Bil = (3, 5, 10) :=
  ⟨fun _ _ _ => ⟨rfl, rfl, rfl⟩, rfl⟩

/-- C5 (code bug): contrary to the stated rule, a fragment whose leading
digits are immediately followed by a letter IS classified `Integer`: the
`INTEGER_DETERMINATE` pattern `^[+-]*[0-9]+[^#a-zA-Z]*[ ]*` is
end-unanchored and its letter-excluding class is starred, so the intended
exclusion never rejects anything.  Evaluation of the code at the failing
input `123abc`: -/
theorem C5_digits_then_letter_is_integer :
    Vicar.Value.determine_type "123abc".toList = .Integer := by decide

/-- C6: for every typed accessor generated by `impl_parse_fn!` (lib.rs) or
`impl_parse_pvl_fn!` (pvl.rs), the call returns `InvalidType` exactly when
the stored type is determined and differs from the accessor's expected
type; otherwise it runs the textual-to-native parse and returns
`ValueTypeParseError` exactly when that parse fails. -/
theorem C6_typed_accessor_contract {α : Type} (parseNative : List Char → Option α)
    (expected : Vicar.ValueType) (v : Vicar.Value)
    (expectedP : PvlM.ValueType) (w : PvlM.Value) :
    (Vicar.implParseFn parseNative expected v = .err .InvalidType ↔
      v.value_type ≠ .Undetermined ∧ v.value_type ≠ expected) ∧
    (v.value_type = .Undetermined ∨ v.value_type = expected →
      Vicar.implParseFn parseNative expected v =
        match parseNative v.value_raw with
        | some x => .ok x
        | none => .err .ValueTypeParseError) ∧
    (v.value_type = .Undetermined ∨ v.value_type = expected →
      (Vicar.implParseFn parseNative expected v = .err .ValueTypeParseError ↔
        parseNative v.value_raw = none)) ∧
    (PvlM.implParseFn parseNative expectedP w = .err .InvalidType ↔
      w.value_type ≠ .Undetermined ∧ w.value_type ≠ expectedP) ∧
    (w.value_type = .Undetermined ∨ w.value_type = expectedP →
      PvlM.implParseFn parseNative expectedP w =
        match parseNative w.value_raw with
        | some x => .ok x
        | none => .err .ValueTypeParseError) ∧
    (w.value_type = .Undetermined ∨ w.value_type = expectedP →
      (PvlM.implParseFn parseNative expectedP w = .err .ValueTypeParseError ↔
        parseNative w.value_raw = none)) := by
  refine ⟨?_, ?_, ?_, ?_, ?_, ?_⟩
  · by_cases hc : v.value_type ≠ .Undetermined ∧ v.value_type ≠ expected
    · simp [Vicar.implParseFn, hc]
    · rw [Vicar.implParseFn, if_neg hc]
      cases hp : parseNative v.value_raw <;> simp [hc]
  · intro h
    have hc : ¬(v.value_type ≠ .Undetermined ∧ v.value_type ≠ expected) := by tauto
    rw [Vicar.implParseFn, if_neg hc]
  · intro h
    have hc : ¬(v.value_type ≠ .Undetermined ∧ v.value_type ≠ expected) := by tauto
    rw [Vicar.implParseFn, if_neg hc]
    cases hp : parseNative v.value_raw <;> simp
  · by_cases hc : w.value_type ≠ .Undetermined ∧ w.value_type ≠ expectedP
    · simp [PvlM.implParseFn, hc]
    · rw [PvlM.implParseFn, if_neg hc]
      cases hp : parseNative w.value_raw <;> simp [hc]
  · intro h
    have hc : ¬(w.value_type ≠ .Undetermined ∧ w.value_type ≠ expectedP) := by tauto
    rw [PvlM.implParseFn, if_neg hc]
  · intro h
    have hc : ¬(w.value_type ≠ .Undetermined ∧ w.value_type ≠ expectedP) := by tauto
    rw [PvlM.implParseFn, if_neg hc]
    cases hp : parseNative w.value_raw <;> simp

/-- Witness for C6: the contract applied to `parse_usize` at the
integer-typed value `12` yields the successful native parse. -/
theorem C6_witness : Vicar.Value.parse_usize (Vicar.Value.new "12".toList) = .ok 12 := by
  have h := (C6_typed_accessor_contract parseUsizeText .Integer
    (Vicar.Value.new "12".toList) .Integer (PvlM.Value.new "12".toList)).2.1
    (Or.inr (by decide))
  exact h.trans (by decide)

/-- C8: `parse_array` (both the lib.rs and pvl.rs copies) fails with
`InvalidType` for every stored type other than exactly `Array` (including
`Undetermined`); on success the result is the flat comma split of the
interior, one `Value` per piece; and on `"(1,2,3)"` it yields exactly the
three `Integer` values `1`, `2`, `3`. -/
theorem C8_parse_array_flat_split :
    (∀ v : Vicar.Value, v.value_type ≠ .Array → v.parse_array = .err .InvalidType) ∧
    (∀ (v : Vicar.Value) (l : List Vicar.Value), v.parse_array = .ok l →
      v.value_type = .Array ∧
      l = (splitOnChar ',' ((v.value_raw.drop 1).take (v.value_raw.length - 2))).map
        Vicar.Value.new) ∧
    (Vicar.Value.new "(1,2,3)".toList).parse_array =
      .ok [⟨"1".toList, .Integer⟩, ⟨"2".toList, .Integer⟩, ⟨"3".toList, .Integer⟩] ∧
    (∀ w : PvlM.Value, w.value_type ≠ .Array → w.parse_array = .err .InvalidType) ∧
    (∀ (w : PvlM.Value) (l : List PvlM.Value), w.parse_array = .ok l →
      w.value_type = .Array ∧
      l = (splitOnChar ',' ((w.value_raw.drop 1).take (w.value_raw.length - 2))).map
        PvlM.Value.new) ∧
    (PvlM.Value.new "(1,2,3)".toList).parse_array =
      .ok [⟨"1".toList, .Integer⟩, ⟨"2".toList, .Integer⟩, ⟨"3".toList, .Integer⟩] := by
  refine ⟨?_, ?_, by decide, ?_, ?_, by decide⟩
  · intro v h
    simp [Vicar.Value.parse_array, h]
  · intro v l h
    by_cases ht : v.value_type = .Array
    · refine ⟨ht, ?_⟩
      by_cases hl : v.value_raw.length < 2
      · simp [Vicar.Value.parse_array, ht, hl] at h
      · simp [Vicar.Value.parse_array, ht, hl] at h
        rw [List.drop_one]
        exact h.symm
    · simp [Vicar.Value.parse_array, ht] at h
  · intro w h
    simp [PvlM.Value.parse_array, h]
  · intro w l h
    by_cases ht : w.value_type = .Array
    · refine ⟨ht, ?_⟩
      by_cases hl : w.value_raw.length < 2
      · simp [PvlM.Value.parse_array, ht, hl] at h
      · simp [PvlM.Value.parse_array, ht, hl] at h
        rw [List.drop_one]
        exact h.symm
    · simp [PvlM.Value.parse_array, ht] at h

/-- Witness for C8: a `Flag`-typed value is rejected with `InvalidType`. -/
theorem C8_witness :
    (Vicar.Value.new "abc".toList).parse_array = .err .InvalidType :=
  C8_parse_array_flat_split.1 (Vicar.Value.new "abc".toList) (by decide)

/-- C9: `PixelFormat::from_string` parses case-insensitively (the success
outcome depends only on the uppercased token), routes the deprecated
aliases `WORD`/`LONG` to the same results as `HALF`/`FULL`, and fails with
`UnexpectedEnum` exactly when the uppercased token is none of the
recognized format names (e.g. `FOO`). -/
theorem C9_pixel_format_from_string :
    Vicar.PixelFormat.from_string "WORD".toList = Vicar.PixelFormat.from_string "HALF".toList ∧
    Vicar.PixelFormat.from_string "LONG".toList = Vicar.PixelFormat.from_string "FULL".toList ∧
    (∀ s t : List Char, upperList s = upperList t → ∀ f,
      Vicar.PixelFormat.from_string s = .ok f ↔ Vicar.PixelFormat.from_string t = .ok f) ∧
    (∀ s : List Char,
      (∃ m, Vicar.PixelFormat.from_string s = .err (.UnexpectedEnum m)) ↔
        upperList s ∉ Vicar.pixelFormatTokens) ∧
    (∃ m, Vicar.PixelFormat.from_string "FOO".toList = .err (.UnexpectedEnum m)) := by
  refine ⟨by decide, by decide, ?_, ?_, ⟨"FOO".toList, by decide⟩⟩
  · intro s t h f
    unfold Vicar.PixelFormat.from_string
    rw [h]
    unfold Vicar.PixelFormat.fromUpper
    split_ifs <;> rfl
  · intro s
    have hmem : upperList s ∈ Vicar.pixelFormatTokens ↔
        (upperList s = "BYTE".toList ∨ upperList s = "HALF".toList ∨
         upperList s = "WORD".toList ∨ upperList s = "FULL".toList ∨
         upperList s = "LONG".toList ∨ upperList s = "REAL".toList ∨
         upperList s = "DOUB".toList ∨ upperList s = "COMP".toList ∨
         upperList s = "COMPLEX".toList) := by
      simp [Vicar.pixelFormatTokens]
    unfold Vicar.PixelFormat.from_string Vicar.PixelFormat.fromUpper
    split_ifs with h1 h2 h3 h4 h5 h6 h7 h8 h9
    · exact iff_of_false (by rintro ⟨m, hm⟩; exact absurd hm (by simp))
        (fun hno => hno (hmem.mpr (by tauto)))
    · exact iff_of_false (by rintro ⟨m, hm⟩; exact absurd hm (by simp))
        (fun hno => hno (hmem.mpr (by tauto)))
    · exact iff_of_false (by rintro ⟨m, hm⟩; exact absurd hm (by simp))
        (fun hno => hno (hmem.mpr (by tauto)))
    · exact iff_of_false (by rintro ⟨m, hm⟩; exact absurd hm (by simp))
        (fun hno => hno (hmem.mpr (by tauto)))
    · exact iff_of_false (by rintro ⟨m, hm⟩; exact absurd hm (by simp))
        (fun hno => hno (hmem.mpr (by tauto)))
    · exact iff_of_false (by rintro ⟨m, hm⟩; exact absurd hm (by simp))
        (fun hno => hno (hmem.mpr (by tauto)))
    · exact iff_of_false (by rintro ⟨m, hm⟩; exact absurd hm (by simp))
        (fun hno => hno (hmem.mpr (by tauto)))
    · exact iff_of_false (by rintro ⟨m, hm⟩; exact absurd hm (by simp))
        (fun hno => hno (hmem.mpr (by tauto)))
    · exact iff_of_false (by rintro ⟨m, hm⟩; exact absurd hm (by simp))
        (fun hno => hno (hmem.mpr (by tauto)))
    · exact iff_of_true ⟨s, rfl⟩ (fun hin => by have hd := hmem.mp hin; tauto)

/-- Witness for C9: case-insensitive agreement applied at `Word` vs
`wORD`. -/
theorem C9_witness :
    Vicar.PixelFormat.from_string "Word".toList = .ok .Half ↔
      Vicar.PixelFormat.from_string "wORD".toList = .ok .Half :=
  C9_pixel_format_from_string.2.2.1 "Word".toList "wORD".toList (by decide) .Half

/-- C10: `Group::get_property` and `Object::get_property` never return
`None`: with no matching property they unwrap an empty iterator (a panic),
so the call is total exactly under the `has_property` precondition, and
with a match they return `Some` of the first matching property. -/
theorem C10_get_property_totality :
    (∀ (g : PvlM.Group) (name : List Char), g.get_property name ≠ .ok none) ∧
    (∀ (o : PvlM.Object) (name : List Char), o.get_property name ≠ .ok none) ∧
    (∀ (g : PvlM.Group) (name : List Char), g.has_property name = false →
      g.get_property name = .panic) ∧
    (∀ (o : PvlM.Object) (name : List Char), o.has_property name = false →
      o.get_property name = .panic) ∧
    (∀ (g : PvlM.Group) (name : List Char) (kvp : PvlM.KeyValuePair),
      PvlM.findProperty g.properties name = some kvp → g.get_property name = .ok (some kvp)) ∧
    (∀ (o : PvlM.Object) (name : List Char) (kvp : PvlM.KeyValuePair),
      PvlM.findProperty o.properties name = some kvp → o.get_property name = .ok (some kvp)) ∧
    (∀ (g : PvlM.Group) (name : List Char), g.has_property name = true ↔
      ∃ kvp, g.get_property name = .ok (some kvp)) ∧
    (∀ (o : PvlM.Object) (name : List Char), o.has_property name = true ↔
      ∃ kvp, o.get_property name = .ok (some kvp)) := by
  have hnever : ∀ (props : List PvlM.KeyValuePair) (name : List Char),
      PvlM.getPropertyImpl props name ≠ .ok none := by
    intro props name h
    unfold PvlM.getPropertyImpl at h
    cases hf : PvlM.findProperty props name <;> simp [hf] at h
  have hpanic : ∀ (props : List PvlM.KeyValuePair) (name : List Char),
      PvlM.hasPropertyImpl props name = false → PvlM.getPropertyImpl props name = .panic := by
    intro props name h
    unfold PvlM.getPropertyImpl
    rw [findProperty_eq_none_of_not_has props name h]
  have hsome : ∀ (props : List PvlM.KeyValuePair) (name : List Char) kvp,
      PvlM.findProperty props name = some kvp →
        PvlM.getPropertyImpl props name = .ok (some kvp) := by
    intro props name kvp h
    unfold PvlM.getPropertyImpl
    rw [h]
  have hiff : ∀ (props : List PvlM.KeyValuePair) (name : List Char),
      PvlM.hasPropertyImpl props name = true ↔
        ∃ kvp, PvlM.getPropertyImpl props name = .ok (some kvp) := by
    intro props name
    rw [hasPropertyImpl_iff_find]
    constructor
    · rintro ⟨p, hp⟩
      exact ⟨p, hsome props name p hp⟩
    · rintro ⟨p, hp⟩
      unfold PvlM.getPropertyImpl at hp
      cases hf : PvlM.findProperty props name <;> rw [hf] at hp
      · simp at hp
      · exact ⟨_, rfl⟩
  exact ⟨fun g name => hnever g.properties name,
    fun o name => hnever o.properties name,
    fun g name h => hpanic g.properties name h,
    fun o name h => hpanic o.properties name h,
    fun g name kvp h => hsome g.properties name kvp h,
    fun o name kvp h => hsome o.properties name kvp h,
    fun g name => hiff g.properties name,
    fun o name => hiff o.properties name⟩

/-- Witness for C10: an empty group makes `get_property` panic. -/
theorem C10_witness :
    PvlM.Group.get_property ⟨"G".toList, []⟩ "X".toList = .panic :=
  C10_get_property_totality.2.2.1 ⟨"G".toList, []⟩ "X".toList (by decide)

/-- C1: for every `VicarReader` built from an embedded label,
`get_pixel_value` reads at the absolute byte offset
`data_start + lines·samples·bps·band + line·NBB + line·samples·bps +
sample·bps`, and `data_start` is the byte index at which the `LBLSIZE`
token was found plus the `LBLSIZE` value plus `NLB·RECSIZE` plus `NBB`. -/
theorem C1_embedded_pixel_offset (s : List Char) (r : Vicar.VicarReader)
    (h : Vicar.vicarNew s = .ok r) :
    (∃ idx lblsize recsize nlb nbb,
      Vicar.scanForProperty s "LBLSIZE".toList = .ok idx ∧
      Vicar.getUsizeField s "LBLSIZE".toList = .ok lblsize ∧
      Vicar.getUsizeField s "RECSIZE".toList = .ok recsize ∧
      Vicar.getUsizeField s "NLB".toList = .ok nlb ∧
      Vicar.getUsizeField s "NBB".toList = .ok nbb ∧
      r.data_start = idx + lblsize + nlb * recsize + nbb ∧
      r.binary_bytes_before_record = nbb) ∧
    ∀ line sample band, r.pixel_read_start line sample band =
      r.data_start +
        (r.lines * r.samples * r.format.bytes_per_sample * band +
          line * r.binary_bytes_before_record +
          line * r.samples * r.format.bytes_per_sample +
          sample * r.format.bytes_per_sample) := by
  simp only [Vicar.vicarNew, PRes.bind_eq_ok] at h
  obtain ⟨idx, hidx, lblsize, hlbl, recsize, hrec, dim, hdim, n1, hn1, n2, hn2, n3, hn3,
    nlb, hnlb, nbb, hnbb, tyS, hty, dt, hdt, fmtS, hfmt, fm, hfm, orgS, horg, og, hog, hr⟩ := h
  rw [PRes.ok.injEq] at hr
  subst hr
  constructor
  · exact ⟨idx, lblsize, recsize, nlb, nbb, hidx, hlbl, hrec, hnlb, hnbb, by ring, rfl⟩
  · intro line sample band
    simp only [Vicar.VicarReader.pixel_read_start, Vicar.VicarReader.get_pixel_index]

/-- Witness for C1: the offset decomposition applied to a concrete embedded
label at pixel query `(1, 2, 0)`. -/
theorem C1_witness :
    Vicar.vicarNew exampleEmbeddedLabel = .ok exampleVicarReader ∧
    exampleVicarReader.pixel_read_start 1 2 0 =
      exampleVicarReader.data_start +
        (exampleVicarReader.lines * exampleVicarReader.samples *
            exampleVicarReader.format.bytes_per_sample * 0 +
          1 * exampleVicarReader.binary_bytes_before_record +
          1 * exampleVicarReader.samples * exampleVicarReader.format.bytes_per_sample +
          2 * exampleVicarReader.format.bytes_per_sample) := by
  have h : Vicar.vicarNew exampleEmbeddedLabel = .ok exampleVicarReader := by decide
  exact ⟨h, (C1_embedded_pixel_offset exampleEmbeddedLabel exampleVicarReader h).2 1 2 0⟩

/-- C3 counterexample: a successfully parsed detached-label document whose
`IMAGE` object lacks a `LINES` property makes construction panic (the
`get_property(..).unwrap()` chain), instead of defaulting the dimension to
0 — refuting the claim that construction never fails because one of the
three properties is absent. -/
theorem C3_counterexample :
    PvlM.fromString 30 exampleDetachedLabelText = .ok exampleDetachedPvl ∧
    exampleDetachedPvl.get_object "IMAGE".toList = some exampleImageObject ∧
    Vicar.newFromDetachedLabelCore exampleDetachedPvl = .panic := by
  refine ⟨by decide, by decide, by decide⟩

/-- C3 (amended): on the detached-label path, a `LINES`/`LINE_SAMPLES`/
`BANDS` lookup defaults to 0 only when the property is present but its
value fails to parse; a missing property panics (via `get_property`'s
unwrap of an empty iterator), so construction does fail on absence. -/
theorem C3_amended_dimension_lookup (o : PvlM.Object) (name : List Char) :
    (PvlM.findProperty o.properties name = none →
      Vicar.lookupDimension o name = .panic) ∧
    ∀ kvp, PvlM.findProperty o.properties name = some kvp →
      Vicar.lookupDimension o name =
        .ok (match kvp.value.parse_usize with
          | .ok v => v
          | _ => 0) := by
  constructor
  · intro h
    simp [Vicar.lookupDimension, PvlM.Object.get_property, PvlM.getPropertyImpl, h]
  · intro kvp h
    simp [Vicar.lookupDimension, PvlM.Object.get_property, PvlM.getPropertyImpl, h]

/-- Witness for C3: a missing `LINES` panics; a present but unparsable
(`Flag`-typed) `LINES` value defaults to 0. -/
theorem C3_witness :
    Vicar.lookupDimension ⟨"IMAGE".toList, []⟩ "LINES".toList = .panic ∧
    Vicar.lookupDimension
        ⟨"IMAGE".toList, [⟨.Key "LINES".toList, PvlM.Value.new "abc".toList⟩]⟩
        "LINES".toList = .ok 0 := by
  constructor
  · exact (C3_amended_dimension_lookup ⟨"IMAGE".toList, []⟩ "LINES".toList).1 (by decide)
  · have h := (C3_amended_dimension_lookup
      ⟨"IMAGE".toList, [⟨.Key "LINES".toList, PvlM.Value.new "abc".toList⟩]⟩
      "LINES".toList).2
      ⟨.Key "LINES".toList, PvlM.Value.new "abc".toList⟩ (by decide)
    exact h.trans (by decide)

/-- C4 counterexample: `Pvl::from_string` silently skips a failing
non-blank line and returns an `Ok` document omitting it.  On this input the
single key-value line fails with the typed error `Eof` (the `next_char()?`
after its final newline runs past the end of the text), yet `from_string`
returns an empty document successfully — refuting the claim that every
parsing failure while reading a key-value pair is returned to the caller. -/
theorem C4_counterexample :
    PvlM.fromString 5 exampleSkippedLineText = .ok ⟨[], [], []⟩ ∧
    (PvlM.readKeyValuePairRaw ⟨PvlM.filterLinefeeds exampleSkippedLineText, 0⟩).1 =
      .err .Eof := by
  refine ⟨by decide, by decide⟩

/-- C4 (amended): an `Err` from a top-level `read_key_value_pair_raw` is
not returned to the caller: the `if let Ok(kvp)` in the `from_string` loop
drops the failing pair and execution continues with the document unchanged
(group/object/comment failures abort via `unwrap` panics rather than typed
returns). -/
theorem C4_amended_silent_skip (fuel : Nat) (pvl : PvlM.Pvl) (st st1 : PvlM.PvlSt)
    (e : PvlM.PvlError)
    (h1 : PvlM.isEof st = false) (h2 : PvlM.isAtEnd st = false)
    (h3 : PvlM.isAtMultilineCommentStart st = .ok false)
    (h4 : PvlM.isAtLineStart st = .ok true)
    (h5 : PvlM.isBlankLine st = .ok false)
    (h6 : PvlM.isAtGroup st = .ok false)
    (h7 : PvlM.isAtObject st = .ok false)
    (h8 : PvlM.readKeyValuePairRaw st = (.err e, st1)) :
    PvlM.fromStringLoop (fuel + 1) pvl st =
      PvlM.fromStringContinue (PvlM.fromStringLoop fuel) pvl st1 := by
  simp only [PvlM.fromStringLoop, h1, h2, h3, h4, h5, h6, h7, h8, Bool.or_self, Bool.false_eq_true,
    if_false]

/-- Witness for C4: the silent-skip step applied at the concrete skipped
line. -/
theorem C4_witness :
    PvlM.fromStringLoop 4 ⟨[], [], []⟩ ⟨exampleSkippedLineText, 0⟩ =
      PvlM.fromStringContinue (PvlM.fromStringLoop 3) ⟨[], [], []⟩
        ⟨exampleSkippedLineText, 43⟩ :=
  C4_amended_silent_skip 3 ⟨[], [], []⟩ ⟨exampleSkippedLineText, 0⟩
    ⟨exampleSkippedLineText, 43⟩ .Eof (by decide) (by decide) (by decide) (by decide)
    (by decide) (by decide) (by decide) (by decide)

/-! ## Scanner stepping lemmas (for the continuation-merging claim) -/

theorem drop_cons_tail {α : Type} {content : List α} {p : Nat} {c : α} {l : List α}
    (h : content.drop p = c :: l) : content.drop (p + 1) = l := by
  have h2 := congrArg (List.drop 1) h
  rw [List.drop_drop] at h2
  simpa using h2

theorem drop_of_append {α : Type} {content : List α} {p : Nat} {A B : List α}
    (h : content.drop p = A ++ B) : content.drop (p + A.length) = B := by
  have h2 := congrArg (List.drop A.length) h
  rw [List.drop_drop, List.drop_left] at h2
  exact h2

theorem lt_length_of_drop_cons {α : Type} {content : List α} {p : Nat} {c : α} {l : List α}
    (h : content.drop p = c :: l) : p < content.length := by
  by_contra hle
  rw [List.drop_eq_nil_of_le (by omega)] at h
  cases h

theorem charAt_of_drop {content : List Char} {p : Nat} {c : Char} {l : List Char}
    (h : content.drop p = c :: l) (pos : Nat) :
    PvlM.charAt ⟨content, pos⟩ p = .ok c := by
  unfold PvlM.charAt
  have h2 : content[p]? = some c := by
    rw [← List.head?_drop, h]
    rfl
  simp [h2]

theorem charAt_eof {content : List Char} {p : Nat} (h : content.length ≤ p) (pos : Nat) :
    PvlM.charAt ⟨content, pos⟩ p = .err .Eof := by
  unfold PvlM.charAt
  have h2 : content[p]? = none := by
    rw [← List.head?_drop, List.drop_eq_nil_of_le h]
    rfl
  simp [h2]

theorem isEof_false_of_lt {content : List Char} {p : Nat} (h : p < content.length) :
    PvlM.isEof ⟨content, p⟩ = false := by
  simp [PvlM.isEof]
  omega

theorem isAtLineStart_zero (content : List Char) :
    PvlM.isAtLineStart ⟨content, 0⟩ = .ok true := by
  simp [PvlM.isAtLineStart]

theorem isAtLineStart_after_newline {content : List Char} {p : Nat} {l : List Char}
    (h : content.drop p = '\n' :: l) :
    PvlM.isAtLineStart ⟨content, p + 1⟩ = .ok true := by
  have hp := lt_length_of_drop_cons h
  unfold PvlM.isAtLineStart
  rw [if_neg (by omega : ¬(0 < p + 1 ∧ content.length < p + 1 - 1)), if_neg (by omega : ¬(p + 1 = 0))]
  simp only [Nat.add_sub_cancel]
  rw [charAt_of_drop h]
  rfl

theorem cont_true_of_spaces {st : PvlM.PvlSt}
    (hls : PvlM.isAtLineStart st = .ok true)
    (hlen : st.pos + 37 < st.content.length)
    (hsp : (st.content.drop st.pos).take 37 = List.replicate 37 ' ') :
    PvlM.isAtValueLineContinuation st = .ok true := by
  unfold PvlM.isAtValueLineContinuation
  rw [hls]
  simp only []
  rw [if_neg (by omega), hsp]
  simp

theorem cont_false_of_nonspaces {st : PvlM.PvlSt}
    (hls : PvlM.isAtLineStart st = .ok true)
    (hlen : st.pos + 37 < st.content.length)
    (hsp : (st.content.drop st.pos).take 37 ≠ List.replicate 37 ' ') :
    PvlM.isAtValueLineContinuation st = .ok false := by
  unfold PvlM.isAtValueLineContinuation
  rw [hls]
  simp only []
  rw [if_neg (by omega)]
  simp only [PRes.ok.injEq, decide_eq_false_iff_not]
  exact hsp

theorem cont_err_of_short {st : PvlM.PvlSt}
    (hls : PvlM.isAtLineStart st = .ok true)
    (hlen : st.content.length ≤ st.pos + 37) :
    PvlM.isAtValueLineContinuation st = .err .Eof := by
  unfold PvlM.isAtValueLineContinuation
  rw [hls]
  simp only []
  rw [if_pos (by omega)]

theorem readSymbolLoop_spec (content : List Char) :
    ∀ (k : List Char) (pos : Nat) (rest acc : List Char) (fuel : Nat),
      content.drop pos = k ++ '=' :: rest →
      (∀ c ∈ k, c ≠ '\n' ∧ c ≠ '\r' ∧ c ≠ '=') →
      k.length < fuel →
      PvlM.readSymbolLoop fuel ⟨content, pos⟩ acc = (.ok (acc ++ k), ⟨content, pos + k.length⟩) := by
  intro k
  induction k with
  | nil =>
    intro pos rest acc fuel hdrop _ hfuel
    obtain ⟨f, rfl⟩ : ∃ f, fuel = f + 1 := ⟨fuel - 1, by omega⟩
    rw [List.nil_append] at hdrop
    unfold PvlM.readSymbolLoop
    rw [isEof_false_of_lt (lt_length_of_drop_cons hdrop)]
    simp only [Bool.false_eq_true, if_false]
    rw [show PvlM.currentChar ⟨content, pos⟩ = .ok '=' from charAt_of_drop hdrop pos]
    simp only []
    rw [if_neg (by simp)]
    simp
  | cons c k' ih =>
    intro pos rest acc fuel hdrop hk hfuel
    obtain ⟨f, rfl⟩ : ∃ f, fuel = f + 1 := ⟨fuel - 1, by omega⟩
    rw [List.cons_append] at hdrop
    have hdrop1 : content.drop (pos + 1) = k' ++ '=' :: rest := drop_cons_tail hdrop
    unfold PvlM.readSymbolLoop
    rw [isEof_false_of_lt (lt_length_of_drop_cons hdrop)]
    simp only [Bool.false_eq_true, if_false]
    rw [show PvlM.currentChar ⟨content, pos⟩ = .ok c from charAt_of_drop hdrop pos]
    simp only []
    have hc := hk c (by simp)
    rw [if_pos hc]
    obtain ⟨c2, l2, hd2⟩ : ∃ c2 l2, content.drop (pos + 1) = c2 :: l2 := by
      cases k' with
      | nil => exact ⟨_, _, hdrop1⟩
      | cons x xs => exact ⟨_, _, hdrop1⟩
    have hnext : PvlM.nextChar ⟨content, pos⟩ = (.ok c2, ⟨content, pos + 1⟩) := by
      show (PvlM.charAt ⟨content, pos + 1⟩ (pos + 1), (⟨content, pos + 1⟩ : PvlM.PvlSt)) = _
      rw [charAt_of_drop hd2]
    rw [hnext]
    simp only []
    rw [ih (pos + 1) rest (acc ++ [c]) f hdrop1 (fun x hx => hk x (by simp [hx]))
      (by simp at hfuel ⊢; omega)]
    simp only [List.append_assoc, List.singleton_append, List.length_cons, Prod.mk.injEq,
      PRes.ok.injEq, PvlM.PvlSt.mk.injEq, true_and]
    omega

theorem readRemainingLineLoop_spec (content : List Char) :
    ∀ (v : List Char) (pos : Nat) (rest acc : List Char) (fuel : Nat),
      content.drop pos = v ++ '\n' :: rest →
      (∀ c ∈ v, c ≠ '\n' ∧ c ≠ '\r' ∧ c ≠ '=') →
      v.length < fuel →
      PvlM.readRemainingLineLoop fuel ⟨content, pos⟩ acc =
        (.ok (acc ++ v), ⟨content, pos + v.length⟩) := by
  intro v
  induction v with
  | nil =>
    intro pos rest acc fuel hdrop _ hfuel
    obtain ⟨f, rfl⟩ : ∃ f, fuel = f + 1 := ⟨fuel - 1, by omega⟩
    rw [List.nil_append] at hdrop
    unfold PvlM.readRemainingLineLoop
    rw [isEof_false_of_lt (lt_length_of_drop_cons hdrop)]
    simp only [Bool.false_eq_true, if_false]
    rw [show PvlM.currentChar ⟨content, pos⟩ = .ok '\n' from charAt_of_drop hdrop pos]
    simp only []
    rw [if_neg (by simp)]
    simp only []
    rw [show PvlM.currentChar ⟨content, pos⟩ = .ok '\n' from charAt_of_drop hdrop pos]
    simp only []
    rw [if_neg (by simp)]
    simp
  | cons c v' ih =>
    intro pos rest acc fuel hdrop hv hfuel
    obtain ⟨f, rfl⟩ : ∃ f, fuel = f + 1 := ⟨fuel - 1, by omega⟩
    rw [List.cons_append] at hdrop
    have hdrop1 : content.drop (pos + 1) = v' ++ '\n' :: rest := drop_cons_tail hdrop
    have hc := hv c (by simp)
    unfold PvlM.readRemainingLineLoop
    rw [isEof_false_of_lt (lt_length_of_drop_cons hdrop)]
    simp only [Bool.false_eq_true, if_false]
    rw [show PvlM.currentChar ⟨content, pos⟩ = .ok c from charAt_of_drop hdrop pos]
    simp only []
    rw [if_neg hc.2.2]
    simp only []
    rw [show PvlM.currentChar ⟨content, pos⟩ = .ok c from charAt_of_drop hdrop pos]
    simp only []
    rw [if_pos ⟨hc.1, hc.2.1⟩]
    rw [isEof_false_of_lt (lt_length_of_drop_cons hdrop)]
    simp only [Bool.false_eq_true, if_false]
    obtain ⟨c2, l2, hd2⟩ : ∃ c2 l2, content.drop (pos + 1) = c2 :: l2 := by
      cases v' with
      | nil => exact ⟨_, _, hdrop1⟩
      | cons x xs => exact ⟨_, _, hdrop1⟩
    have hnext : PvlM.nextChar ⟨content, pos⟩ = (.ok c2, ⟨content, pos + 1⟩) := by
      show (PvlM.charAt ⟨content, pos + 1⟩ (pos + 1), (⟨content, pos + 1⟩ : PvlM.PvlSt)) = _
      rw [charAt_of_drop hd2]
    rw [hnext]
    simp only []
    rw [ih (pos + 1) rest (acc ++ [c]) f hdrop1 (fun x hx => hv x (by simp [hx]))
      (by simp at hfuel ⊢; omega)]
    simp only [List.append_assoc, List.singleton_append, List.length_cons, Prod.mk.injEq,
      PRes.ok.injEq, PvlM.PvlSt.mk.injEq, true_and]
    omega

theorem readRemainingLineLoop_key_spec {content : List Char} {pos : Nat} {v1 rest acc : List Char}
    {fuel : Nat}
    (hdrop : content.drop pos = '=' :: ' ' :: (v1 ++ '\n' :: rest))
    (hv : ∀ c ∈ v1, c ≠ '\n' ∧ c ≠ '\r' ∧ c ≠ '=')
    (hfuel : v1.length + 1 < fuel) :
    PvlM.readRemainingLineLoop fuel ⟨content, pos⟩ acc =
      (.ok (acc ++ v1), ⟨content, pos + 2 + v1.length⟩) := by
  obtain ⟨f, rfl⟩ : ∃ f, fuel = f + 1 := ⟨fuel - 1, by omega⟩
  have hlen3 : pos + 2 < content.length := by
    have := congrArg List.length hdrop
    simp [List.length_drop] at this
    omega
  have hdrop1 : content.drop (pos + 1) = ' ' :: (v1 ++ '\n' :: rest) := drop_cons_tail hdrop
  have hdrop2 : content.drop (pos + 2) = v1 ++ '\n' :: rest := by
    have := drop_cons_tail hdrop1
    simpa [Nat.add_assoc] using this
  have hjump : PvlM.jump ⟨content, pos⟩ 2 = (.ok (), ⟨content, pos + 2⟩) := by
    unfold PvlM.jump
    rw [isEof_false_of_lt (lt_length_of_drop_cons hdrop)]
    simp only [Bool.false_eq_true, if_false]
    rw [if_neg (by simp; omega)]
  unfold PvlM.readRemainingLineLoop
  rw [isEof_false_of_lt (lt_length_of_drop_cons hdrop)]
  simp only [Bool.false_eq_true, if_false]
  rw [show PvlM.currentChar ⟨content, pos⟩ = .ok '=' from charAt_of_drop hdrop pos]
  simp only []
  simp only [if_true]
  rw [hjump]
  simp only []
  cases v1 with
  | nil =>
    rw [show PvlM.currentChar ⟨content, pos + 2⟩ = .ok '\n' from
      charAt_of_drop (by simpa using hdrop2) (pos + 2)]
    simp only []
    rw [if_neg (by simp)]
    simp
  | cons c v1' =>
    have hc := hv c (by simp)
    rw [List.cons_append] at hdrop2
    have hdrop3 : content.drop (pos + 3) = v1' ++ '\n' :: rest := by
      have := drop_cons_tail hdrop2
      simpa [Nat.add_assoc] using this
    rw [show PvlM.currentChar ⟨content, pos + 2⟩ = .ok c from charAt_of_drop hdrop2 (pos + 2)]
    simp only []
    rw [if_pos ⟨hc.1, hc.2.1⟩]
    rw [isEof_false_of_lt (lt_length_of_drop_cons hdrop2)]
    simp only [Bool.false_eq_true, if_false]
    obtain ⟨c2, l2, hd2⟩ : ∃ c2 l2, content.drop (pos + 3) = c2 :: l2 := by
      cases v1' with
      | nil => exact ⟨_, _, hdrop3⟩
      | cons x xs => exact ⟨_, _, hdrop3⟩
    have hnext : PvlM.nextChar ⟨content, pos + 2⟩ = (.ok c2, ⟨content, pos + 3⟩) := by
      show (PvlM.charAt ⟨content, pos + 2 + 1⟩ (pos + 2 + 1), (⟨content, pos + 2 + 1⟩ : PvlM.PvlSt)) = _
      rw [show pos + 2 + 1 = pos + 3 from rfl]
      rw [charAt_of_drop hd2]
    rw [hnext]
    simp only []
    rw [readRemainingLineLoop_spec content v1' (pos + 3) rest (acc ++ [c]) f hdrop3
      (fun x hx => hv x (by simp [hx])) (by simp at hfuel ⊢; omega)]
    simp only [List.append_assoc, List.singleton_append, List.length_cons, Prod.mk.injEq,
      PRes.ok.injEq, PvlM.PvlSt.mk.injEq, true_and]
    omega

theorem readRemainingLine_key_spec {content : List Char} {pos : Nat} {v1 rest : List Char}
    (hdrop : content.drop pos = '=' :: ' ' :: (v1 ++ '\n' :: rest))
    (hv : ∀ c ∈ v1, c ≠ '\n' ∧ c ≠ '\r' ∧ c ≠ '=') :
    PvlM.readRemainingLine ⟨content, pos⟩ =
      (.ok (trimL v1), ⟨content, pos + 2 + v1.length⟩) := by
  have hlenv : v1.length + 1 < content.length + 2 := by
    have := congrArg List.length hdrop
    simp [List.length_drop] at this
    omega
  unfold PvlM.readRemainingLine
  rw [readRemainingLineLoop_key_spec hdrop hv hlenv]
  simp

theorem readRemainingLine_plain_spec {content : List Char} {pos : Nat} {v rest : List Char}
    (hdrop : content.drop pos = v ++ '\n' :: rest)
    (hv : ∀ c ∈ v, c ≠ '\n' ∧ c ≠ '\r' ∧ c ≠ '=') :
    PvlM.readRemainingLine ⟨content, pos⟩ =
      (.ok (trimL v), ⟨content, pos + v.length⟩) := by
  have hlenv : v.length < content.length + 2 := by
    have := congrArg List.length hdrop
    simp [List.length_drop] at this
    omega
  unfold PvlM.readRemainingLine
  rw [readRemainingLineLoop_spec content v pos rest [] (content.length + 2) hdrop hv hlenv]
  simp

theorem dropWhile_replicate_space (n : Nat) (v : List Char) :
    (List.replicate n ' ' ++ v).dropWhile isTrimWs = v.dropWhile isTrimWs := by
  induction n with
  | zero => simp
  | succ n ih =>
    rw [List.replicate_succ, List.cons_append, List.dropWhile_cons]
    simpa using ih

theorem trimL_replicate_space (n : Nat) (v : List Char) :
    trimL (List.replicate n ' ' ++ v) = trimL v := by
  unfold trimL
  rw [dropWhile_replicate_space]

theorem readSymbol_key_spec {content : List Char} {k rest : List Char}
    (hcontent : content = k ++ '=' :: rest)
    (hk : ∀ c ∈ k, c ≠ '\n' ∧ c ≠ '\r' ∧ c ≠ '=')
    (hlen : 37 < content.length)
    (h37 : content.take 37 ≠ List.replicate 37 ' ') :
    PvlM.readSymbol ⟨content, 0⟩ =
      (.ok (PvlM.classifySymbol (trimL k)), ⟨content, k.length⟩) := by
  have hcont : PvlM.isAtValueLineContinuation ⟨content, 0⟩ = .ok false := by
    refine cont_false_of_nonspaces (isAtLineStart_zero content) (by simpa using hlen) ?_
    simpa using h37
  unfold PvlM.readSymbol
  rw [hcont]
  simp only []
  rw [isAtLineStart_zero]
  simp only []
  rw [readSymbolLoop_spec content k 0 rest [] (content.length + 2)
    (by simpa using hcontent.symm ▸ (rfl : content.drop 0 = content.drop 0)) hk
    (by subst hcontent; simp; omega)]
  simp

theorem readKVPLoop_two_lines {content : List Char} {p : Nat} {v2 t acc : List Char} {fuel : Nat}
    (hnl : content.drop p = '\n' :: (List.replicate 37 ' ' ++ (v2 ++ '\n' :: t)))
    (hv2 : ∀ c ∈ v2, c ≠ '\n' ∧ c ≠ '\r' ∧ c ≠ '=')
    (ht0 : t ≠ []) (ht37 : t.take 37 ≠ List.replicate 37 ' ')
    (hfuel : 1 < fuel) :
    PvlM.readKVPLoop fuel ⟨content, p + 1⟩ acc =
      (.ok (acc ++ trimL v2), ⟨content, p + 39 + v2.length⟩) := by
  obtain ⟨f, rfl⟩ : ∃ f, fuel = f + 1 := ⟨fuel - 1, by omega⟩
  obtain ⟨f2, rfl⟩ : ∃ f2, f = f2 + 1 := ⟨f - 1, by omega⟩
  have hdropline2 : content.drop (p + 1) = List.replicate 37 ' ' ++ (v2 ++ '\n' :: t) :=
    drop_cons_tail hnl
  have hlenrem : content.length = p + 39 + v2.length + t.length := by
    have := congrArg List.length hnl
    simp [List.length_drop] at this
    omega
  have htlen : 0 < t.length := List.length_pos.mpr ht0
  have hls1 : PvlM.isAtLineStart ⟨content, p + 1⟩ = .ok true := isAtLineStart_after_newline hnl
  have hsp : (content.drop (p + 1)).take 37 = List.replicate 37 ' ' := by
    rw [hdropline2]
    exact List.take_left' (by simp)
  have hcont1 : PvlM.isAtValueLineContinuation ⟨content, p + 1⟩ = .ok true :=
    cont_true_of_spaces hls1 (by simp; omega) (by simpa using hsp)
  have hdropline2' : content.drop (p + 1) = (List.replicate 37 ' ' ++ v2) ++ '\n' :: t := by
    rw [hdropline2, List.append_assoc]
  have hrrl : PvlM.readRemainingLine ⟨content, p + 1⟩ =
      (.ok (trimL v2), ⟨content, p + 38 + v2.length⟩) := by
    have := readRemainingLine_plain_spec hdropline2'
      (fun c hc => by
        rcases List.mem_append.mp hc with hm | hm
        · have := List.eq_of_mem_replicate hm
          subst this
          refine ⟨by decide, by decide, by decide⟩
        · exact hv2 c hm)
    rw [trimL_replicate_space] at this
    rw [this]
    congr 1
    simp [PvlM.PvlSt.mk.injEq]
    omega
  have hdropnl2 : content.drop (p + 38 + v2.length) = '\n' :: t := by
    have h1 := drop_of_append (B := '\n' :: t) hdropline2'
    have : p + 1 + (List.replicate 37 ' ' ++ v2).length = p + 38 + v2.length := by
      simp
      omega
    rwa [this] at h1
  obtain ⟨c0, t', rfl⟩ : ∃ c0 t', t = c0 :: t' := by
    cases t with
    | nil => exact absurd rfl ht0
    | cons x xs => exact ⟨x, xs, rfl⟩
  have hdropt : content.drop (p + 39 + v2.length) = c0 :: t' := by
    have := drop_cons_tail hdropnl2
    rw [show p + 38 + v2.length + 1 = p + 39 + v2.length by omega] at this
    exact this
  have hnext : PvlM.nextChar ⟨content, p + 38 + v2.length⟩ =
      (.ok c0, ⟨content, p + 39 + v2.length⟩) := by
    show (PvlM.charAt ⟨content, p + 38 + v2.length + 1⟩ (p + 38 + v2.length + 1),
      (⟨content, p + 38 + v2.length + 1⟩ : PvlM.PvlSt)) = _
    rw [show p + 38 + v2.length + 1 = p + 39 + v2.length by omega]
    rw [charAt_of_drop hdropt]
  have hls2 : PvlM.isAtLineStart ⟨content, p + 39 + v2.length⟩ = .ok true := by
    have := isAtLineStart_after_newline hdropnl2
    rw [show p + 38 + v2.length + 1 = p + 39 + v2.length by omega] at this
    exact this
  -- iteration 1
  unfold PvlM.readKVPLoop
  rw [hcont1]
  simp only []
  rw [hrrl]
  simp only []
  rw [hnext]
  simp only []
  -- iteration 2: the continuation check answers Ok(false) or Err(Eof)
  unfold PvlM.readKVPLoop
  by_cases hshort : content.length ≤ p + 39 + v2.length + 37
  · rw [cont_err_of_short hls2 (by simpa using hshort)]
  · have hcont2 : PvlM.isAtValueLineContinuation ⟨content, p + 39 + v2.length⟩ = .ok false := by
      refine cont_false_of_nonspaces hls2 (by simp; omega) ?_
      simpa [hdropt] using ht37
    rw [hcont2]

theorem readKVP_two_line_spec {k v1 v2 t : List Char} (content : List Char)
    (hcontent : content =
      k ++ '=' :: ' ' :: (v1 ++ '\n' :: (List.replicate 37 ' ' ++ (v2 ++ '\n' :: t))))
    (hk : ∀ c ∈ k, c ≠ '\n' ∧ c ≠ '\r' ∧ c ≠ '=')
    (hv1 : ∀ c ∈ v1, c ≠ '\n' ∧ c ≠ '\r' ∧ c ≠ '=')
    (hv2 : ∀ c ∈ v2, c ≠ '\n' ∧ c ≠ '\r' ∧ c ≠ '=')
    (ht0 : t ≠ []) (ht37 : t.take 37 ≠ List.replicate 37 ' ')
    (h37 : content.take 37 ≠ List.replicate 37 ' ') :
    PvlM.readKeyValuePairRaw ⟨content, 0⟩ =
      (.ok ⟨PvlM.classifySymbol (trimL k), PvlM.Value.new (trimL v1 ++ trimL v2)⟩,
        ⟨content, k.length + 2 + v1.length + 39 + v2.length⟩) := by
  have hlentotal : content.length =
      k.length + 2 + v1.length + 1 + 37 + v2.length + 1 + t.length := by
    subst hcontent
    simp
    omega
  have hlen : 37 < content.length := by omega
  have h0 : content.drop 0 = k ++ ('=' :: ' ' :: (v1 ++ '\n' ::
      (List.replicate 37 ' ' ++ (v2 ++ '\n' :: t)))) := by
    rw [List.drop_zero]
    exact hcontent
  have hdropk : content.drop k.length = '=' :: ' ' :: (v1 ++ '\n' ::
      (List.replicate 37 ' ' ++ (v2 ++ '\n' :: t))) := by
    have := drop_of_append h0
    simpa using this
  have hdropk1 : content.drop (k.length + 1) = ' ' :: (v1 ++ '\n' ::
      (List.replicate 37 ' ' ++ (v2 ++ '\n' :: t))) := drop_cons_tail hdropk
  have hdropk2 : content.drop (k.length + 2) = v1 ++ '\n' ::
      (List.replicate 37 ' ' ++ (v2 ++ '\n' :: t)) := by
    have := drop_cons_tail hdropk1
    simpa [Nat.add_assoc] using this
  have hnl : content.drop (k.length + 2 + v1.length) = '\n' ::
      (List.replicate 37 ' ' ++ (v2 ++ '\n' :: t)) := by
    have := drop_of_append hdropk2
    simpa [Nat.add_assoc] using this
  have hcont0 : PvlM.isAtValueLineContinuation ⟨content, 0⟩ = .ok false := by
    refine cont_false_of_nonspaces (isAtLineStart_zero content) (by simpa using hlen) ?_
    simpa using h37
  have hsym : PvlM.readSymbol ⟨content, 0⟩ =
      (.ok (PvlM.classifySymbol (trimL k)), ⟨content, k.length⟩) :=
    readSymbol_key_spec hcontent hk hlen h37
  have hrrl : PvlM.readRemainingLine ⟨content, k.length⟩ =
      (.ok (trimL v1), ⟨content, k.length + 2 + v1.length⟩) :=
    readRemainingLine_key_spec hdropk hv1
  have hdropnl1 : content.drop (k.length + 2 + v1.length + 1) =
      List.replicate 37 ' ' ++ (v2 ++ '\n' :: t) := drop_cons_tail hnl
  have hnext : PvlM.nextChar ⟨content, k.length + 2 + v1.length⟩ =
      (.ok ' ', ⟨content, k.length + 2 + v1.length + 1⟩) := by
    show (PvlM.charAt ⟨content, k.length + 2 + v1.length + 1⟩ (k.length + 2 + v1.length + 1),
      (⟨content, k.length + 2 + v1.length + 1⟩ : PvlM.PvlSt)) = _
    rw [charAt_of_drop (l := List.replicate 36 ' ' ++ (v2 ++ '\n' :: t))
      (by simpa [List.replicate_succ] using hdropnl1)]
  have hloop : PvlM.readKVPLoop (content.length + 2)
      ⟨content, k.length + 2 + v1.length + 1⟩ (trimL v1) =
      (.ok (trimL v1 ++ trimL v2), ⟨content, k.length + 2 + v1.length + 39 + v2.length⟩) :=
    readKVPLoop_two_lines hnl hv2 ht0 ht37 (by omega)
  unfold PvlM.readKeyValuePairRaw
  rw [hcont0]
  simp only []
  rw [isAtLineStart_zero]
  simp only []
  rw [hsym]
  simp only []
  rw [hrrl]
  simp only []
  rw [hnext]
  simp only []
  rw [hloop]

/-- C7 counterexample: the claim as stated is false.  For the pair
`KEY1 = A=B` continued (37-space prefix) by `CD`, reading produces a single
`Value` whose raw text is `ACD`, not the concatenation `A=BCD` of the two
value fragments: the `=` inside the first fragment triggers
`read_remaining_line`'s two-character jump (which runs at every `=`, not
just the key/value separator), dropping the `=` and the character after
it. -/
theorem C7_counterexample :
    (PvlM.readKeyValuePairRaw ⟨exampleEqualsValueText, 0⟩).1 =
      .ok ⟨.Key "KEY1".toList, PvlM.Value.new "ACD".toList⟩ ∧
    (PvlM.Value.new "ACD".toList).value_raw ≠ trimL "A=B".toList ++ trimL "CD".toList := by
  refine ⟨by decide, by decide⟩

/-- C7 (amended): a `KEY = VALUE` pair whose value is split across a
following line prefixed by exactly 37 literal spaces, and whose value
fragments contain no `=` (an `=` inside a fragment triggers
`read_remaining_line`'s two-character jump and corrupts the value — see the
counterexample), reads as a single `Value` whose raw text is the
concatenation of the two trimmed value fragments with no inserted
separator; and a line whose first 37 characters are not all spaces is not
treated as a continuation.  The content shape
`k ++ "= " ++ v1 ++ "\n" ++ (37 spaces) ++ v2 ++ "\n" ++ t` covers every
such two-line pair (the non-empty tail `t` reflects that the reader in the
source consumes one character past the pair's final newline). -/
theorem C7_continuation_merging (k v1 v2 t : List Char)
    (hk : ∀ c ∈ k, c ≠ '\n' ∧ c ≠ '\r' ∧ c ≠ '=')
    (hv1 : ∀ c ∈ v1, c ≠ '\n' ∧ c ≠ '\r' ∧ c ≠ '=')
    (hv2 : ∀ c ∈ v2, c ≠ '\n' ∧ c ≠ '\r' ∧ c ≠ '=')
    (hkey : PvlM.classifySymbol (trimL k) = .Key (trimL k))
    (ht0 : t ≠ []) (ht37 : t.take 37 ≠ List.replicate 37 ' ')
    (h37 : (k ++ '=' :: ' ' :: (v1 ++ '\n' ::
        (List.replicate 37 ' ' ++ (v2 ++ '\n' :: t)))).take 37 ≠ List.replicate 37 ' ') :
    (∃ stF, PvlM.readKeyValuePairRaw
        ⟨k ++ '=' :: ' ' :: (v1 ++ '\n' :: (List.replicate 37 ' ' ++ (v2 ++ '\n' :: t))), 0⟩ =
      (.ok ⟨.Key (trimL k), PvlM.Value.new (trimL v1 ++ trimL v2)⟩, stF)) ∧
    (PvlM.Value.new (trimL v1 ++ trimL v2)).value_raw = trimL v1 ++ trimL v2 ∧
    ∀ st : PvlM.PvlSt, PvlM.isAtLineStart st = .ok true →
      st.pos + 37 < st.content.length →
      (st.content.drop st.pos).take 37 ≠ List.replicate 37 ' ' →
      PvlM.isAtValueLineContinuation st = .ok false := by
  refine ⟨⟨⟨k ++ '=' :: ' ' :: (v1 ++ '\n' :: (List.replicate 37 ' ' ++ (v2 ++ '\n' :: t))),
    k.length + 2 + v1.length + 39 + v2.length⟩, ?_⟩, rfl,
    fun st h1 h2 h3 => cont_false_of_nonspaces h1 h2 h3⟩
  rw [readKVP_two_line_spec _ rfl hk hv1 hv2 ht0 ht37 h37, hkey]

/-- Witness for C7: the merged read applied at a concrete two-line pair
(`KEY1 = AB` continued by 37 spaces and `CD`, merging to `ABCD`). -/
theorem C7_witness :
    ∃ stF, PvlM.readKeyValuePairRaw
        ⟨"KEY1 ".toList ++ '=' :: ' ' :: ("AB".toList ++ '\n' ::
          (List.replicate 37 ' ' ++ ("CD".toList ++ '\n' :: "X".toList))), 0⟩ =
      (.ok ⟨.Key (trimL "KEY1 ".toList),
        PvlM.Value.new (trimL "AB".toList ++ trimL "CD".toList)⟩, stF) :=
  (C7_continuation_merging "KEY1 ".toList "AB".toList "CD".toList "X".toList
    (by decide) (by decide) (by decide) (by decide) (by decide) (by decide) (by decide)).1

end VicarRs
